import Mathlib

/-!
Verification of the dugong HTTP/1.1 client core (`src/dugong/__init__.py`).

The development shallowly embeds the connection state machine as pure Lean
functions.  Bytes are modelled as `List Nat` (one entry per byte), Python
strings as Lean `String`, and every fallible operation returns
`Except Err _`.  Socket input is modelled as the list of bytes currently
available from the peer (`Conn.input`); a `recv` takes the maximal amount
that fits in the free buffer space (one legal schedule of the
non-blocking socket), and an operation that would suspend forever on an
idle socket returns the `Err.blocked` marker.  Bytes written to the
socket accumulate in `Conn.output`.  Loops of the source are embedded
with an explicit fuel argument; the public entry points pass fuel that is
always sufficient (each loop iteration of the source consumes at least
one byte of available input), so `Err.fuelExhausted` never occurs there.

External collaborators are abstracted at their interface, exactly where
the source calls out of the repository: the MD5/base64 helper of
`hashlib`/`base64` is a function parameter `md5b64`, and the RFC-5322
header parsing done by Python's `email` library is a function parameter
`parseHdr` (a simple concrete instance `simpleHeaderParse` is provided
for closed runs).  Exception *messages* of the source are elided: only
the exception class is modelled by `Err`.
-/

namespace Dugong

/-- Carriage-return/line-feed byte pair, the wire line separator. -/
def CRLF : List Nat := [13, 10]

/-- Internal buffer size (source: `BUFFER_SIZE = 64*1024`). -/
def BUFFER_SIZE : Nat := 64 * 1024

/-- Maximal length of the HTTP status line (source: `MAX_LINE_SIZE = BUFFER_SIZE-1`). -/
def MAX_LINE_SIZE : Nat := BUFFER_SIZE - 1

/-- Maximal total length of a response header block (source: `MAX_HEADER_SIZE = BUFFER_SIZE-1`). -/
def MAX_HEADER_SIZE : Nat := BUFFER_SIZE - 1

/-- latin-1 encoding of a string: one byte per character (its code point).
Models `str.encode('latin1')` on its domain of success. -/
def latin1 (s : String) : List Nat := s.data.map Char.toNat

/-- latin-1 decoding of bytes.  Note that latin-1 decoding of bytes never
fails in Python (all 256 byte values are assigned), so this is total. -/
def decodeLatin1 (l : List Nat) : String := ⟨l.map Char.ofNat⟩

/-- Python byte-slice `d[a:b]` for non-negative indices (with Python's clamping). -/
def pySlice (d : List Nat) (a b : Nat) : List Nat := (d.drop a).take (b - a)

/-- Python byte-slice `d[a:stop]` where `stop` may be a negative int
(Python counts negative indices from the end). -/
def pySliceStop (d : List Nat) (a : Nat) (stop : Int) : List Nat :=
  let s : Nat := if stop < 0 then ((d.length : Int) + stop).toNat else min stop.toNat d.length
  (d.drop a).take (s - a)

/-- Python bytearray slice assignment `buf[i:i+len(part)] = part`: replaces
the (clamped) slice, growing the array when the slice reaches past the end. -/
def pySliceAssign (buf : List Nat) (i : Nat) (part : List Nat) : List Nat :=
  buf.take i ++ part ++ buf.drop (i + part.length)

/-- Model of the source helper `_join(parts)`, including its size-accumulator
slip: the loop executes `size += len(parts)` (the length of the outer
sequence) once per part, so `size = len(parts)^2`; the parts are then
written sequentially with bytearray slice assignment, which grows or leaves
trailing zero bytes depending on how `size` compares with the real total. -/
def pyJoin (parts : List (List Nat)) : List Nat :=
  let size := parts.length * parts.length
  (parts.foldl (fun acc part => (pySliceAssign acc.1 acc.2 part, acc.2 + part.length))
    (List.replicate size 0, 0)).1

/-- Python `sep.join(pieces)` for byte strings (the correct stdlib join used
by `co_send_request` via `b'\r\n'.join(request)`). -/
def sepJoin (sep : List Nat) : List (List Nat) → List Nat
  | [] => []
  | [x] => x
  | x :: y :: xs => x ++ sep ++ sepJoin sep (y :: xs)

/-- Fuelled scanner behind `bytesFind`. -/
def bytesFindAux (d sub : List Nat) (stop : Nat) : Nat → Nat → Option Nat
  | 0, _ => none
  | fuel+1, i =>
    if i + sub.length ≤ stop then
      if pySlice d i (i + sub.length) = sub then some i
      else bytesFindAux d sub stop fuel (i+1)
    else none

/-- Python `d.find(sub, start, stop)`: least index of a match lying entirely
inside `[start, stop)`, or `none`. -/
def bytesFind (d sub : List Nat) (start stop : Nat) : Option Nat :=
  bytesFindAux d sub stop (stop + 1) start

/-- ASCII lowercasing of a character (Python `str.lower` on the ASCII
range, which is all that HTTP header names use). -/
def lowerChar (c : Char) : Char :=
  if 'A' ≤ c ∧ c ≤ 'Z' then Char.ofNat (c.toNat + 32) else c

/-- ASCII `str.lower()`. -/
def pyLower (s : String) : String := ⟨s.data.map lowerChar⟩

/-- `str.startswith(pre)`. -/
def pyStartsWith (s pre : String) : Bool := s.data.take pre.data.length == pre.data

/-- `ch in s` for a single character. -/
def strContainsChar (s : String) (ch : Char) : Bool := s.data.any (fun c => c == ch)

/-- Python `str.split()` whitespace set (ASCII part). -/
def isPyWs (c : Char) : Bool :=
  c == ' ' || c == '\t' || c == '\n' || c == '\r' || c == '\x0b' || c == '\x0c'

/-- Fuelled helper for `pySplit`: splits a character list on whitespace
runs with an optional remaining-split budget, like Python
`str.split(None, maxsplit)`.  Each step consumes at least one character,
so fuel `cs.length + 1` always suffices. -/
def pySplitAux : Nat → List Char → Option Nat → List String
  | 0, _, _ => []
  | fuel+1, cs, maxs =>
    match cs.dropWhile isPyWs with
    | [] => []
    | c :: rest =>
      match maxs with
      | some 0 => [⟨c :: rest⟩]
      | _ =>
        let tok := rest.takeWhile (fun ch => !(isPyWs ch))
        String.mk (c :: tok) :: pySplitAux fuel (rest.drop tok.length) (maxs.map (· - 1))

/-- Python `line.split(None, maxsplit)`. -/
def pySplit (s : String) (maxs : Nat) : List String :=
  pySplitAux (s.data.length + 1) s.data (some maxs)

/-- Python `s.strip()` (whitespace strip at both ends). -/
def pyStrip (s : String) : String :=
  ⟨((s.data.dropWhile isPyWs).reverse.dropWhile isPyWs).reverse⟩

/-- Digit-run parser: digits with single underscores allowed between digits,
accumulating into `acc` (Python int literal digit grouping). -/
def digitsValAux (base : Nat) (hexOk : Bool) : List Char → Nat → Option Nat
  | [], acc => some acc
  | '_' :: c :: cs, acc =>
    match charDigit hexOk c with
    | some v => digitsValAux base hexOk cs (acc * base + v)
    | none => none
  | c :: cs, acc =>
    match charDigit hexOk c with
    | some v => digitsValAux base hexOk cs (acc * base + v)
    | none => none
where
  charDigit (hexOk : Bool) (c : Char) : Option Nat :=
    if c.isDigit then some (c.toNat - 48)
    else if hexOk && 'a' ≤ c && c ≤ 'f' then some (c.toNat - 87)
    else if hexOk && 'A' ≤ c && c ≤ 'F' then some (c.toNat - 55)
    else none

/-- Digit run with a required leading digit. -/
def digitsVal (base : Nat) (hexOk : Bool) : List Char → Option Nat
  | [] => none
  | c :: cs =>
    match digitsValAux.charDigit hexOk c with
    | some v => digitsValAux base hexOk cs v
    | none => none

/-- Python `int(s)` (base 10): optional surrounding whitespace, optional
sign, digits with underscore grouping. -/
def pyInt (s : String) : Option Int :=
  let cs := ((s.data.dropWhile isPyWs).reverse.dropWhile isPyWs).reverse
  match cs with
  | '+' :: rest => (digitsVal 10 false rest).map Int.ofNat
  | '-' :: rest => (digitsVal 10 false rest).map (fun n => -(n : Int))
  | rest => (digitsVal 10 false rest).map Int.ofNat

/-- Python `int(s, 16)`: like `pyInt` but hexadecimal, allowing an optional
`0x`/`0X` prefix. -/
def pyIntHex (s : String) : Option Int :=
  let cs := ((s.data.dropWhile isPyWs).reverse.dropWhile isPyWs).reverse
  let core : List Char → Option Nat := fun l =>
    match l with
    | '0' :: 'x' :: rest => hexTail rest
    | '0' :: 'X' :: rest => hexTail rest
    | l => digitsVal 16 true l
  match cs with
  | '+' :: rest => (core rest).map Int.ofNat
  | '-' :: rest => (core rest).map (fun n => -(n : Int))
  | rest => (core rest).map Int.ofNat
where
  hexTail (l : List Char) : Option Nat :=
    match l with
    | '_' :: rest => digitsVal 16 true rest
    | rest => digitsVal 16 true rest

/-- Case-insensitive header dictionary (`CaseInsensitiveDict`): an
insertion-ordered association list of `(lowercased key, original key, value)`.
Overwriting a present key keeps its position, like a Python dict. -/
abbrev CIDict := List (String × String × String)

/-- `d[key] = value` of `CaseInsensitiveDict`. -/
def cidSet (d : CIDict) (k v : String) : CIDict :=
  let lk := pyLower k
  if d.any (fun ent => ent.1 == lk) then
    d.map (fun ent => if ent.1 == lk then (lk, k, v) else ent)
  else d ++ [(lk, k, v)]

/-- `key in d` of `CaseInsensitiveDict` (case-insensitive). -/
def cidContains (d : CIDict) (k : String) : Bool :=
  d.any (fun ent => ent.1 == pyLower k)

/-- `d[key]` of `CaseInsensitiveDict` (case-insensitive lookup). -/
def cidGet (d : CIDict) (k : String) : Option String :=
  (d.find? (fun ent => ent.1 == pyLower k)).map (fun ent => ent.2.2)

/-- `d.items()` of `CaseInsensitiveDict`: original-cased keys with values,
in insertion order. -/
def cidItems (d : CIDict) : List (String × String) := d.map (fun ent => ent.2)

/-- Builds a `CaseInsensitiveDict` from an ordered list of pairs
(`CaseInsensitiveDict(data)`, which `update`s item by item). -/
def mkCID (hs : List (String × String)) : CIDict :=
  hs.foldl (fun d kv => cidSet d kv.1 kv.2) []

/-- Fixed-size read buffer with begin/end cursors (source class `_Buffer`). -/
structure Buffer where
  d : List Nat
  b : Nat
  e : Nat
  deriving DecidableEq, Repr

/-- `len(buffer)`: amount of data ready for consumption. -/
def Buffer.len (bu : Buffer) : Nat := bu.e - bu.b

/-- `_Buffer.clear`. -/
def Buffer.clear (bu : Buffer) : Buffer := { bu with b := 0, e := 0 }

/-- `_Buffer.compact`: copies the unconsumed region to the front of a fresh
zero-filled array of the same size. -/
def Buffer.compact (bu : Buffer) : Buffer :=
  if bu.b = 0 then bu
  else
    let content := pySlice bu.d bu.b bu.e
    { d := content ++ List.replicate (bu.d.length - content.length) 0,
      b := 0, e := content.length }

/-- `_Buffer.exhaust`: returns (and consumes) all available data.  When
`b = 0` the source surrenders the underlying array (truncated to `e`) and
installs a fresh one; otherwise it copies the slice out. -/
def Buffer.exhaust (bu : Buffer) : List Nat × Buffer :=
  if bu.b = 0 then
    (bu.d.take bu.e, { d := List.replicate bu.d.length 0, b := 0, e := 0 })
  else
    (pySlice bu.d bu.b bu.e, { bu with b := 0, e := 0 })

/-- Closed set of failure kinds (exception classes of the source; messages
elided).  `chunkTooLong` is the internal `_ChunkTooLong` signal, `blocked`
marks a coroutine that would suspend forever on an idle socket in this
input model, and `fuelExhausted` is the artefact of fuelled loops (the
entry points pass sufficient fuel). -/
inductive Err where
  | stateError
  | excessBodyData
  | invalidResponse
  | unsupportedResponse
  | connectionClosed
  | valueError
  | typeError
  | runtimeError
  | indexError
  | assertionFailed
  | chunkTooLong
  | blocked
  | fuelExhausted
  deriving DecidableEq, Repr

/-- Third component of `_out_remaining`: a byte count still owed, the
`WAITING_FOR_100c` sentinel, or Python `None` (only producible by the
100-continue queue restore). -/
inductive Remaining where
  | waitingFor100c
  | count (n : Nat)
  | pyNone
  deriving DecidableEq, Repr

/-- The `body` argument of `send_request`: absent, an inline bytes-like
object, or a `BodyFollowing(length)` declaration. -/
inductive Body where
  | noBody
  | bytes (data : List Nat)
  | following (length : Option Nat)
  deriving DecidableEq, Repr

/-- True for `BodyFollowing` instances. -/
def Body.isFollowing : Body → Bool
  | .following _ => true
  | _ => false

/-- The `_encoding` slot: unset, identity, chunked, or poisoned with a
deferred `InvalidResponse`/`UnsupportedResponse`. -/
inductive Encoding where
  | notSet
  | identity
  | chunked
  | errInvalid
  | errUnsupported
  deriving DecidableEq, Repr

/-- Parsed response headers (interface of the `email.message.Message`
object: case-insensitive lookup, `None` when missing). -/
abbrev Headers := List (String × String)

/-- `message[key]`: case-insensitive lookup, `none` when absent. -/
def hGet (h : Headers) (k : String) : Option String :=
  (h.find? (fun kv => pyLower kv.1 == pyLower k)).map (fun kv => kv.2)

/-- `key in message`. -/
def hContains (h : Headers) (k : String) : Bool := (hGet h k).isSome

/-- Response descriptor returned by `read_response` (class `HTTPResponse`). -/
structure HTTPResponse where
  method : String
  path : String
  status : Int
  reason : String
  headers : Headers
  length : Option Int
  deriving DecidableEq, Repr

/-- Connection state (the fields of `HTTPConnection` relevant to the wire
protocol), together with the modelled socket: `input` bytes available to
read, `eof` whether the peer has closed, `output` bytes sent so far. -/
structure Conn where
  sock : Bool
  hostname : String
  port : Nat
  ssl : Bool
  rbuf : Buffer
  input : List Nat
  eof : Bool
  output : List Nat
  pending : List (String × String × Option Nat)
  outRemaining : Option (String × String × Remaining)
  inRemaining : Option Int
  encoding : Encoding
  deriving DecidableEq, Repr

/-- Model of `connect` for a direct (proxy-less) connection: opens the
socket, clears the buffer and resets all queues.  CONNECT tunnelling and
the TLS upgrade are outside the claims and not modelled. -/
def connect (c : Conn) : Conn :=
  { c with sock := true, rbuf := c.rbuf.clear, outRemaining := none,
           inRemaining := none, pending := [] }

/-- Model of `_co_send`: the non-blocking send loop eventually writes the
whole byte string in submission order, so its completed effect is to append
`buf` to the emitted output.  Peer-initiated failures (broken pipe, EINVAL
blackhole) are external events not modelled; a missing socket is the
`AttributeError` of `self._sock.fileno()`, rendered `runtimeError`. -/
def coSend (c : Conn) (buf : List Nat) : Except Err Conn :=
  if c.sock then .ok { c with output := c.output ++ buf } else .error .runtimeError

/-- The `Host` header value generated by `co_send_request`. -/
def hostHeaderVal (c : Conn) : String :=
  let host := if strContainsChar c.hostname ':' then "[" ++ c.hostname ++ "]" else c.hostname
  let defaultPort := if c.ssl then 443 else 80
  if c.port = defaultPort then host else host ++ ":" ++ toString c.port

/-- Body-dependent header mutations of `co_send_request` (source lines
481-506): `Content-Length` always, plus `Expect` for 100-continue
declarations and `Content-MD5` for inline bodies the caller did not hash. -/
def bodyHeaders (md5b64 : List Nat → String) (hs : List (String × String))
    (body : Body) (expect100 : Bool) : CIDict :=
  let h0 := mkCID hs
  match body with
  | .noBody => cidSet h0 "Content-Length" "0"
  | .following len =>
    let hx := if expect100 then cidSet h0 "Expect" "100-continue" else h0
    cidSet hx "Content-Length" (toString (len.getD 0))
  | .bytes data =>
    let hx := cidSet h0 "Content-Length" (toString data.length)
    if cidContains hx "Content-MD5" then hx
    else cidSet hx "Content-MD5" (md5b64 data)

/-- Connection-wide header mutations of `co_send_request` (source lines
508-521): `Host`, `Accept-Encoding`, and `Connection` when unset. -/
def stdHeaders (c : Conn) (d : CIDict) : CIDict :=
  let h2 := cidSet d "Host" (hostHeaderVal c)
  let h3 := cidSet h2 "Accept-Encoding" "identity"
  if cidContains h3 "Connection" then h3 else cidSet h3 "Connection" "keep-alive"

/-- The complete header map assembled by `co_send_request` (source lines
476-521), assuming the argument combination is valid. -/
def finalHeaders (md5b64 : List Nat → String) (c : Conn)
    (hs : List (String × String)) (body : Body) (expect100 : Bool) : CIDict :=
  stdHeaders c (bodyHeaders md5b64 hs body expect100)

/-- One serialized `Key: Value` line per header, in insertion order. -/
def headerLines (h : CIDict) : List (List Nat) :=
  (cidItems h).map (fun kv => latin1 (kv.1 ++ ": " ++ kv.2))

/-- The inline body bytes appended to the request buffer (empty otherwise). -/
def inlineBody : Body → List Nat
  | .bytes data => data
  | _ => []

/-- The byte string `co_send_request` hands to the send path:
`b'\r\n'.join([request line] + header lines + [b''] + [body or b''])`. -/
def requestBytes (md5b64 : List Nat → String) (c : Conn) (method path : String)
    (hs : List (String × String)) (body : Body) (expect100 : Bool) : List Nat :=
  sepJoin CRLF
    ([latin1 (method ++ " " ++ path ++ " HTTP/1.1")]
      ++ headerLines (finalHeaders md5b64 c hs body expect100)
      ++ [[]] ++ [inlineBody body])

/-- Model of `co_send_request` (source lines 446-537).  `md5b64` abstracts
`b64encode(hashlib.md5(body).digest()).decode('ascii')`. -/
def co_send_request (md5b64 : List Nat → String) (c : Conn) (method path : String)
    (hs : List (String × String)) (body : Body) (expect100 : Bool) : Except Err Conn :=
  if expect100 && !body.isFollowing then .error .valueError
  else
    let c0 := if c.sock then c else connect c
    if c0.outRemaining.isSome then .error .stateError
    else
      match body with
      | .following none => .error .valueError
      | _ =>
        let pbs : Option Nat :=
          match body, expect100 with
          | .following (some n), true => some n
          | _, _ => none
        let outR : Option (String × String × Remaining) :=
          match body, expect100 with
          | .following (some _), true => some (method, path, .waitingFor100c)
          | .following (some n), false => some (method, path, .count n)
          | _, _ => none
        match coSend c0 (requestBytes md5b64 c0 method path hs body expect100) with
        | .error er => .error er
        | .ok c1 =>
          let c2 := { c1 with outRemaining := outR }
          .ok (if outR.isNone || expect100
               then { c2 with pending := c2.pending ++ [(method, path, pbs)] }
               else c2)

/-- Model of `co_write` (source lines 578-608). -/
def co_write (c : Conn) (buf : List Nat) : Except Err Conn :=
  match c.outRemaining with
  | none => .error .stateError
  | some (method, path, rem) =>
    match rem with
    | .waitingFor100c => .error .stateError
    | .pyNone => .error .typeError
    | .count remaining =>
      if buf.length > remaining then .error .excessBodyData
      else
        match coSend c buf with
        | .error er => .error er
        | .ok c1 =>
          if buf.length = remaining then
            .ok { c1 with outRemaining := none,
                          pending := c1.pending ++ [(method, path, none)] }
          else
            .ok { c1 with outRemaining := some (method, path, .count (remaining - buf.length)) }

/-- `response_pending`: whether requests with unconsumed responses remain. -/
def response_pending (c : Conn) : Bool := decide (0 < c.pending.length)

/-- Model of `disconnect` (source lines 1163-1178): best-effort shutdown
and close of the socket and a buffer clear; nothing else is touched. -/
def disconnect (c : Conn) : Conn :=
  if c.sock then { c with sock := false, rbuf := c.rbuf.clear } else c

/-- Model of `_try_fill_buffer`: a non-blocking `recv_into` the free region
of the buffer.  The embedding takes the maximal available amount (one legal
schedule of the socket).  Returns `none` when no data is ready.  With no
free space, `recv_into` returns 0 at once and the source trips its
`assert rbuf.e < len(rbuf.d)` before raising `ConnectionClosed`. -/
def tryFill (c : Conn) : Except Err (Option Conn) :=
  let cap := c.rbuf.d.length
  if cap ≤ c.rbuf.e then .error .assertionFailed
  else
    match c.input with
    | [] => if c.eof then .error .connectionClosed else .ok none
    | _ =>
      let k := min (cap - c.rbuf.e) c.input.length
      let newD := c.rbuf.d.take c.rbuf.e ++ c.input.take k ++ c.rbuf.d.drop (c.rbuf.e + k)
      .ok (some { c with rbuf := { c.rbuf with d := newD, e := c.rbuf.e + k },
                         input := c.input.drop k })

/-- Fuelled loop of `_co_fill_buffer`. -/
def coFillBufferF : Nat → Conn → Nat → Except Err Conn
  | 0, _, _ => .error .fuelExhausted
  | fuel+1, c, need =>
    if c.rbuf.len < need then
      let c1 := if c.rbuf.d.length - c.rbuf.b < need then { c with rbuf := c.rbuf.compact } else c
      match tryFill c1 with
      | .error er => .error er
      | .ok none => .error .blocked
      | .ok (some c2) => coFillBufferF fuel c2 need
    else .ok c

/-- Model of `_co_fill_buffer` (source lines 1107-1116): ensure at least
`need` buffered bytes, compacting when the tail of the array is too small. -/
def co_fill_buffer (c : Conn) (need : Nat) : Except Err Conn :=
  if c.sock then coFillBufferF (c.input.length + 1) c need else .error .runtimeError

/-- Fuelled loop of `_co_readstr_until` (source lines 1037-1077), including
the delimiter-straddle probe over the tail of the last saved part and the
budget bookkeeping on buffer exhaustion. -/
def readstrLoopF (substr : List Nat) :
    Nat → Conn → List (List Nat) → Nat → Except Err (String × Conn)
  | 0, _, _, _ => .error .fuelExhausted
  | fuel+1, c, parts, maxsize =>
    let finish : Nat → Except Err (String × Conn) := fun idxEnd =>
      let bufF := pySlice c.rbuf.d c.rbuf.b idxEnd
      let c1 := { c with rbuf := { c.rbuf with b := idxEnd } }
      let total := if parts = [] then bufF else pyJoin (parts ++ [bufF])
      .ok (decodeLatin1 total, c1)
    let strad : Option Nat :=
      match parts with
      | [] => none
      | _ :: _ =>
        if 1 < substr.length then
          let lastPart := parts.getLastD []
          let probe := pyJoin [lastPart.drop (lastPart.length - substr.length),
                               pySlice c.rbuf.d c.rbuf.b (min c.rbuf.e (c.rbuf.b + substr.length - 1))]
          bytesFind probe substr 0 probe.length
        else none
    match strad with
    | some p =>
      -- found straddling: the source computes `idx = p - sub_len` and later
      -- adds `len(substr)` back, so the cursor index used is exactly `p`
      finish p
    | none =>
      let stop := min c.rbuf.e (c.rbuf.b + maxsize)
      match bytesFind c.rbuf.d substr c.rbuf.b stop with
      | some idxAbs => finish (idxAbs + substr.length)
      | none =>
        if stop ≠ c.rbuf.e then .error .chunkTooLong
        else
          let next :=
            if c.rbuf.e = c.rbuf.d.length then
              let ex := c.rbuf.exhaust
              (parts ++ [ex.1], maxsize - ex.1.length, { c with rbuf := ex.2 })
            else (parts, maxsize, c)
          match tryFill next.2.2 with
          | .error er => .error er
          | .ok none => .error .blocked
          | .ok (some c2) => readstrLoopF substr fuel c2 next.1 next.2.1

/-- Model of `_co_readstr_until`: read from the server until `substr`,
decode as latin-1 and return the string (delimiter included). -/
def co_readstr_until (c : Conn) (substr : List Nat) (maxsize : Nat) :
    Except Err (String × Conn) :=
  if !c.sock then .error .runtimeError
  else if !(decide (substr.length < c.rbuf.d.length)) then .error .assertionFailed
  else readstrLoopF substr (c.input.length + 1) c [] maxsize

/-- The pure status-line parser of `_co_read_status` (source lines 747-769):
whitespace-split into version/status/reason with Python's unpacking
fallbacks, version check, 3-digit status range check, stripped reason. -/
def statusParseLine (line : String) : Except Err (Int × String) :=
  let vsr : String × String × String :=
    match pySplit line 2 with
    | [v, s, r] => (v, s, r)
    | [v, s] => (v, s, "")
    | _ => ("", "", "")
  if !(pyStartsWith vsr.1 "HTTP/1") then .error .unsupportedResponse
  else
    match pyInt vsr.2.1 with
    | none => .error .invalidResponse
    | some st =>
      if st < 100 || 999 < st then .error .invalidResponse
      else .ok (st, pyStrip vsr.2.2)

/-- Model of `_co_read_status` (source lines 736-769). -/
def co_read_status (c : Conn) : Except Err ((Int × String) × Conn) :=
  match co_readstr_until c CRLF MAX_LINE_SIZE with
  | .error .chunkTooLong => .error .invalidResponse
  | .error er => .error er
  | .ok (line, c1) =>
    match statusParseLine line with
    | .error er => .error er
    | .ok sr => .ok (sr, c1)

/-- Model of `_co_read_header` (source lines 771-792): peek two bytes for
the empty-header shortcut, otherwise read until the blank line. -/
def co_read_header (c : Conn) : Except Err (String × Conn) :=
  match (if c.rbuf.len < 2 then co_fill_buffer c 2 else .ok c) with
  | .error er => .error er
  | .ok c1 =>
    if pySlice c1.rbuf.d c1.rbuf.b (c1.rbuf.b + 2) = CRLF then
      .ok ("", { c1 with rbuf := { c1.rbuf with b := c1.rbuf.b + 2 } })
    else
      match co_readstr_until c1 (CRLF ++ CRLF) MAX_HEADER_SIZE with
      | .error .chunkTooLong => .error .invalidResponse
      | .error er => .error er
      | .ok r => .ok r

/-- Fuelled fill loop of `_co_read_id` (source lines 884-891): while more
could be returned than is buffered and the buffer has room, try a socket
read; on an idle socket the source suspends only when the buffer is empty,
otherwise it stops filling. -/
def readIdLoopF : Nat → Conn → Int → Except Err Conn
  | 0, _, _ => .error .fuelExhausted
  | fuel+1, c, len1 =>
    if (c.rbuf.len : Int) < len1 ∧ c.rbuf.e < c.rbuf.d.length then
      match tryFill c with
      | .error er => .error er
      | .ok (some c1) => readIdLoopF fuel c1 len1
      | .ok none => if c.rbuf.len = 0 then .error .blocked else .ok c
    else .ok c

/-- Model of `_co_read_id` (source lines 863-903): read up to `len0` bytes
of an identity-encoded body.  Cursor updates by a negative Python int
(possible only through a negative caller length or negative
`Content-Length`) are clamped at zero, which no claim exercises. -/
def co_read_id (c : Conn) (len0 : Int) : Except Err (List Nat × Conn) :=
  match c.inRemaining with
  | none => .error .assertionFailed
  | some inr =>
    if inr = 0 then
      match c.pending with
      | [] => .error .indexError
      | _ :: rest => .ok ([], { c with inRemaining := none, pending := rest })
    else if !c.sock then .error .runtimeError
    else
      let len1 : Int := min len0 inr
      match readIdLoopF (c.input.length + 1) c len1 with
      | .error er => .error er
      | .ok c2 =>
        let len2 : Int := min len1 (c2.rbuf.len : Int)
        let inr2 := inr - len2
        if len2 < (c2.rbuf.len : Int) then
          let bufR := pySliceStop c2.rbuf.d c2.rbuf.b ((c2.rbuf.b : Int) + len2)
          .ok (bufR, { c2 with inRemaining := some inr2,
                               rbuf := { c2.rbuf with b := ((c2.rbuf.b : Int) + len2).toNat } })
        else
          let ex := c2.rbuf.exhaust
          .ok (ex.1, { c2 with inRemaining := some inr2, rbuf := ex.2 })

/-- Fuelled recv loop of `_co_readinto_id` (source lines 944-965): read
straight from the socket into the caller's buffer until `len1` bytes are
placed; an idle socket returns what has been placed so far, if anything. -/
def readIntoLoopF : Nat → Conn → Int → Int → List Nat → Except Err (List Nat × Conn)
  | 0, _, _, _, _ => .error .fuelExhausted
  | fuel+1, c, pos, len1, acc =>
    match c.input with
    | [] =>
      if c.eof then .error .connectionClosed
      else if pos ≠ 0 then .ok (acc, c)
      else .error .blocked
    | _ =>
      let k := min c.input.length (len1 - pos).toNat
      let taken := c.input.take k
      let c1 := { c with input := c.input.drop k,
                         inRemaining := c.inRemaining.map (fun v => v - (k : Int)) }
      if (pos + (k : Int)) = len1 then .ok (acc ++ taken, c1)
      else readIntoLoopF fuel c1 (pos + (k : Int)) len1 (acc ++ taken)

/-- Model of `_co_readinto_id` (source lines 905-965): drain the read
buffer first, then receive directly into the caller's buffer.  The result
carries the bytes written (their count is the Python return value). -/
def co_readinto_id (c : Conn) (bufLen : Nat) : Except Err (List Nat × Conn) :=
  match c.inRemaining with
  | none => .error .assertionFailed
  | some inr =>
    if inr = 0 then
      match c.pending with
      | [] => .error .indexError
      | _ :: rest => .ok ([], { c with inRemaining := none, pending := rest })
    else if !c.sock then .error .runtimeError
    else
      let len1 : Int := min (bufLen : Int) inr
      let pos : Int := min (c.rbuf.len : Int) len1
      let fromBuf := pySliceStop c.rbuf.d c.rbuf.b ((c.rbuf.b : Int) + pos)
      let rb1 :=
        if pos ≠ 0 then
          let nb := ((c.rbuf.b : Int) + pos).toNat
          if nb = c.rbuf.e then { c.rbuf with b := 0, e := 0 }
          else { c.rbuf with b := nb }
        else c.rbuf
      let c1 := if pos ≠ 0
                then { c with rbuf := rb1, inRemaining := some (inr - pos) }
                else c
      if pos ≠ 0 ∧ pos = len1 then .ok (fromBuf, c1)
      else readIntoLoopF (c1.input.length + 1) c1 pos len1 fromBuf

/-- Reading mode of `_co_read_chunked`: a `read`-style length or a
`readinto`-style destination size. -/
inductive RWMode where
  | lenMode (len1 : Int)
  | intoMode (bufLen : Nat)
  deriving DecidableEq, Repr

/-- Model of `_co_read_chunked` (source lines 967-1016): at a chunk
boundary parse the size line (stripping `;` extensions), finish on the
zero chunk, otherwise delegate to the identity decoder, and consume the
chunk trailer via the header reader when the chunk is drained. -/
def co_read_chunked (c : Conn) (mode : RWMode) : Except Err (List Nat × Conn) :=
  match c.inRemaining with
  | none => .error .assertionFailed
  | some inr0 =>
    let step1 : Except Err Conn :=
      if inr0 = 0 then
        match co_readstr_until c CRLF MAX_LINE_SIZE with
        | .error .chunkTooLong => .error .invalidResponse
        | .error er => .error er
        | .ok (line, ca) =>
          let cs := line.data
          let cs1 := match cs.findIdx? (fun ch => ch == ';') with
                     | some i => cs.take i
                     | none => cs
          match pyIntHex ⟨cs1⟩ with
          | none => .error .invalidResponse
          | some n =>
            if n = 0 then
              match ca.pending with
              | [] => .error .indexError
              | _ :: rest => .ok { ca with inRemaining := none, pending := rest }
            else .ok { ca with inRemaining := some n }
      else .ok c
    match step1 with
    | .error er => .error er
    | .ok c1 =>
      let step2 : Except Err (List Nat × Conn) :=
        match c1.inRemaining with
        | none => .ok ([], c1)
        | some _ =>
          match mode with
          | .intoMode bl => co_readinto_id c1 bl
          | .lenMode l => co_read_id c1 l
      match step2 with
      | .error er => .error er
      | .ok (res, c2) =>
        if (match c2.inRemaining with | none => true | some v => v = 0) then
          match co_read_header c2 with
          | .error er => .error er
          | .ok (_, c3) => .ok (res, c3)
        else .ok (res, c2)

/-- Model of `co_read` for an explicit length (source lines 817-830; the
`len_ = None` entry dispatches to `co_readall` and is not modelled). -/
def co_read (c : Conn) (len0 : Int) : Except Err (List Nat × Conn) :=
  if len0 = 0 then .ok ([], c)
  else
    match c.inRemaining with
    | none => .error .stateError
    | some _ =>
      match c.encoding with
      | .identity => co_read_id c len0
      | .chunked => co_read_chunked c (.lenMode len0)
      | .errInvalid => .error .invalidResponse
      | .errUnsupported => .error .unsupportedResponse
      | .notSet => .error .runtimeError

/-- Model of `co_readinto` (source lines 836-861); `bufLen` is the length
of the caller's destination buffer, the result list holds the bytes
written (the Python return value is their count). -/
def co_readinto (c : Conn) (bufLen : Nat) : Except Err (List Nat × Conn) :=
  if bufLen = 0 then .ok ([], c)
  else
    match c.inRemaining with
    | none => .error .stateError
    | some _ =>
      match c.encoding with
      | .identity => co_readinto_id c bufLen
      | .chunked => co_read_chunked c (.intoMode bufLen)
      | .errInvalid => .error .invalidResponse
      | .errUnsupported => .error .unsupportedResponse
      | .notSet => .error .runtimeError

/-- Fuelled 1xx-consuming loop of `co_read_response` (source lines
643-656): parse a status line and header block, break on a final status or
on 100 while a 100-continue body is pending, otherwise parse again. -/
def statusLoopF (parseHdr : String → Headers) (bodySize : Option Nat) :
    Nat → Conn → Except Err ((Int × String × Headers) × Conn)
  | 0, _ => .error .fuelExhausted
  | fuel+1, c =>
    match co_read_status c with
    | .error er => .error er
    | .ok ((status, reason), c1) =>
      match co_read_header c1 with
      | .error er => .error er
      | .ok (hstring, c2) =>
        let header := parseHdr hstring
        if status < 100 ∨ 199 < status then .ok ((status, reason, header), c2)
        else if bodySize.isSome ∧ status = 100 then .ok ((status, reason, header), c2)
        else statusLoopF parseHdr bodySize fuel c2

/-- Model of `co_read_response` (source lines 622-734).  `parseHdr`
abstracts `email.message_from_string(hstring, policy=email.policy.HTTP)`. -/
def co_read_response (parseHdr : String → Headers) (c : Conn) :
    Except Err (HTTPResponse × Conn) :=
  match c.pending with
  | [] => .error .stateError
  | (method, path, bodySize) :: _ =>
    if c.inRemaining.isSome then .error .stateError
    else
      match statusLoopF parseHdr bodySize (c.input.length + c.rbuf.len + 1) c with
      | .error er => .error er
      | .ok ((status, reason, header), c2) =>
        if status = 100 then
          if c2.outRemaining ≠ some (method, path, .waitingFor100c) then .error .assertionFailed
          else
            match c2.pending with
            | [] => .error .indexError
            | (m2, p2, bs2) :: rest2 =>
              let out2 := some (m2, p2,
                match bs2 with | some n => Remaining.count n | none => Remaining.pyNone)
              .ok (⟨method, path, status, reason, header, some 0⟩,
                   { c2 with outRemaining := out2, pending := rest2, inRemaining := none })
        else
          let afterOut : Except Err Conn :=
            if bodySize.isSome then
              if c2.outRemaining ≠ some (method, path, .waitingFor100c) then .error .assertionFailed
              else .ok { c2 with outRemaining := none }
            else .ok c2
          match afterOut with
          | .error er => .error er
          | .ok c3 =>
            let tcOpt := hGet header "Transfer-Encoding"
            let enc1 : Encoding :=
              match tcOpt with
              | some tc =>
                if tc ≠ "" then
                  if pyLower tc = "chunked" then .chunked
                  else if pyLower tc ≠ "identity" then .errInvalid
                  else .identity
                else .identity
              | none => .identity
            let inR1 : Option Int := if enc1 = .chunked then some 0 else none
            if status = 204 ∨ status = 304 ∨ (100 ≤ status ∧ status < 200) ∨ method = "HEAD" then
              .ok (⟨method, path, status, reason, header, some 0⟩,
                   { c3 with encoding := .identity, inRemaining := some 0 })
            else if enc1 = .chunked then
              .ok (⟨method, path, status, reason, header, none⟩,
                   { c3 with encoding := enc1, inRemaining := inR1 })
            else if !(hContains header "Content-Length") ∧ enc1 ≠ .errInvalid then
              .ok (⟨method, path, status, reason, header, none⟩,
                   { c3 with encoding := .errUnsupported, inRemaining := some 0 })
            else
              match hGet header "Content-Length" with
              | none => .error .typeError
              | some clStr =>
                match pyInt clStr with
                | none => .error .valueError
                | some n =>
                  .ok (⟨method, path, status, reason, header, some n⟩,
                       { c3 with encoding := enc1, inRemaining := some n })

/-- Helper of `simpleHeaderParse`: split a character list at CRLF pairs. -/
def splitCRLFAux : List Char → List Char → List (List Char)
  | [], acc => [acc.reverse]
  | '\r' :: '\n' :: rest, acc => acc.reverse :: splitCRLFAux rest []
  | ch :: rest, acc => splitCRLFAux rest (ch :: acc)

/-- Modelled from the spec: `co_read_response` delegates header-block
parsing to Python's `email` library (an RFC-5322-style line folder with the
HTTP policy), which is outside this repository.  This simple instance
covers unfolded single-line headers: one `Key: value` pair per CRLF line,
value whitespace-stripped.  It instantiates the abstract `parseHdr`
parameter in concrete runs. -/
def simpleHeaderParse (s : String) : Headers :=
  (splitCRLFAux s.data []).filterMap (fun lineCs =>
    if lineCs = [] then none
    else
      match lineCs.findIdx? (fun ch => ch == ':') with
      | some i => some (⟨lineCs.take i⟩, pyStrip ⟨lineCs.drop (i+1)⟩)
      | none => none)

/-! ### Baseline concrete states used by witnesses and counterexamples -/

/-- A freshly connected example connection (capacity `BUFFER_SIZE` buffer,
no pending requests, nothing to read). -/
def connEx : Conn :=
  { sock := true, hostname := "example.com", port := 80, ssl := false,
    rbuf := ⟨List.replicate BUFFER_SIZE 0, 0, 0⟩, input := [], eof := false,
    output := [], pending := [], outRemaining := none, inRemaining := none,
    encoding := .notSet }

/-! ### C8: the byte-sequence join helper -/

/-- C8 (code bug): `_join` does not return the concatenation of the parts.
Its size accumulator adds `len(parts)` instead of `len(part)`, so
`_join([b'a', b'b'])` allocates 4 bytes and returns `b'ab\x00\x00'` — two
trailing zero bytes that are neither part — and `_join([b''])` returns
`b'\x00'` instead of `b''`. -/
theorem c8_join_is_not_concat :
    pyJoin [[97], [98]] = [97, 98, 0, 0]
      ∧ pyJoin [[97], [98]] ≠ [97] ++ [98]
      ∧ pyJoin [[]] = [0] := by
  decide

/-! ### C10: zero-length reads -/

/-- C10: `read(0)` returns the empty byte string and `read_into` with an
empty buffer returns 0 (the empty written-bytes list), immediately, in
every connection state, leaving the state untouched; whereas with no open
response (`_in_remaining` is `None`) any other length raises `StateError`. -/
theorem c10_zero_length_reads (c : Conn) :
    co_read c 0 = .ok ([], c)
      ∧ co_readinto c 0 = .ok ([], c)
      ∧ (∀ n : Int, n ≠ 0 → c.inRemaining = none → co_read c n = .error .stateError)
      ∧ (∀ k : Nat, k ≠ 0 → c.inRemaining = none → co_readinto c k = .error .stateError) := by
  refine ⟨rfl, ?_, ?_, ?_⟩
  · simp [co_readinto]
  · intro n hn hin
    simp [co_read, hn, hin]
  · intro k hk hin
    simp [co_readinto, hk, hin]

/-- Witness for C10 at a concrete connection. -/
theorem c10_witness :
    co_read connEx 0 = .ok ([], connEx) ∧ co_read connEx 5 = .error .stateError := by
  have h := c10_zero_length_reads connEx
  exact ⟨h.1, h.2.2.1 5 (by decide) rfl⟩

/-! ### C7: disconnect -/

/-- A connection with an in-flight exchange, used to show what `disconnect`
does and does not reset. -/
def c7state : Conn :=
  { connEx with
    rbuf := ⟨List.replicate BUFFER_SIZE 0, 3, 7⟩
    pending := [("GET", "/", none)]
    outRemaining := some ("PUT", "/p", .count 7)
    inRemaining := some 3 }

/-- C7 (counterexample): `disconnect` closes the socket and clears the
read buffer but does *not* reset the queues — the pipelining queue, the
outbound remainder and the inbound remainder keep their values, and
`response_pending()` still returns `true` afterwards, contradicting the
claim. -/
theorem c7_counterexample :
    response_pending (disconnect c7state) = true
      ∧ (disconnect c7state).pending = [("GET", "/", none)]
      ∧ (disconnect c7state).outRemaining = some ("PUT", "/p", .count 7)
      ∧ (disconnect c7state).inRemaining = some 3
      ∧ (disconnect c7state).sock = false := by
  refine ⟨rfl, rfl, rfl, rfl, rfl⟩

/-- C7 (amended): after `disconnect` the socket is closed and null and (if
a socket was open) the read buffer is empty; the pipelining queue, the
outbound remainder and the inbound remainder are left unchanged — they are
reset by the next `connect`. -/
theorem c7_disconnect_amended (c : Conn) :
    (disconnect c).sock = false
      ∧ (c.sock = true → (disconnect c).rbuf.b = 0 ∧ (disconnect c).rbuf.e = 0)
      ∧ (disconnect c).pending = c.pending
      ∧ (disconnect c).outRemaining = c.outRemaining
      ∧ (disconnect c).inRemaining = c.inRemaining
      ∧ response_pending (disconnect c) = response_pending c := by
  by_cases h : c.sock <;>
    simp [disconnect, h, Buffer.clear, response_pending]

/-- Witness for C7's amended statement at a concrete connection. -/
theorem c7_witness :
    (disconnect c7state).rbuf.b = 0 ∧ (disconnect c7state).rbuf.e = 0
      ∧ (disconnect c7state).pending = c7state.pending := by
  have h := c7_disconnect_amended c7state
  exact ⟨(h.2.1 rfl).1, (h.2.1 rfl).2, h.2.2.1⟩

/-! ### C4: body send (`write`) -/

/-- C4: `write(buf)` fails with `StateError` when no outbound remainder
exists or it is the WAITING_FOR_100 sentinel; fails with `ExcessBodyData`
when `len(buf)` exceeds the remaining count; otherwise it forwards the
bytes to the send path, and exactly when the remainder reaches zero it
clears `outbound_remainder` and pushes `(method, path, None)` onto the
pipelining queue, else it just decrements the remainder. -/
theorem c4_write (c : Conn) (buf : List Nat) :
    (c.outRemaining = none → co_write c buf = .error .stateError)
      ∧ (∀ m p, c.outRemaining = some (m, p, .waitingFor100c) →
           co_write c buf = .error .stateError)
      ∧ (∀ m p n, c.outRemaining = some (m, p, .count n) → n < buf.length →
           co_write c buf = .error .excessBodyData)
      ∧ (∀ m p n, c.outRemaining = some (m, p, .count n) → buf.length ≤ n →
           c.sock = true →
           (buf.length = n →
              co_write c buf = .ok { c with output := c.output ++ buf,
                                            outRemaining := none,
                                            pending := c.pending ++ [(m, p, none)] })
           ∧ (buf.length < n →
              co_write c buf
                = .ok { c with output := c.output ++ buf,
                               outRemaining := some (m, p, .count (n - buf.length)) })) := by
  refine ⟨?_, ?_, ?_, ?_⟩
  · intro h; simp [co_write, h]
  · intro m p h; simp [co_write, h]
  · intro m p n h hlt; simp [co_write, h, hlt]
  · intro m p n h hle hsock
    constructor
    · intro heq
      simp [co_write, h, Nat.not_lt.mpr hle, coSend, hsock, heq]
    · intro hlt
      have hne : ¬ buf.length = n := Nat.ne_of_lt hlt
      simp [co_write, h, Nat.not_lt.mpr hle, coSend, hsock, hne]

/-- A connection owing 4 request-body bytes, used as the C4 witness. -/
def c4state : Conn := { connEx with outRemaining := some ("PUT", "/p", .count 4) }

/-- Witness for C4 at concrete states, exercising all four branches. -/
theorem c4_witness :
    co_write connEx [1] = .error .stateError
      ∧ co_write { connEx with outRemaining := some ("PUT", "/p", .waitingFor100c) } [1]
          = .error .stateError
      ∧ co_write c4state [1, 2, 3, 4, 5] = .error .excessBodyData
      ∧ co_write c4state [1, 2, 3, 4]
          = .ok { c4state with output := [1, 2, 3, 4], outRemaining := none,
                               pending := [("PUT", "/p", none)] }
      ∧ co_write c4state [1]
          = .ok { c4state with output := [1],
                               outRemaining := some ("PUT", "/p", .count 3) } := by
  refine ⟨?_, ?_, ?_, ?_, ?_⟩
  · exact (c4_write connEx [1]).1 rfl
  · exact (c4_write _ [1]).2.1 "PUT" "/p" rfl
  · exact (c4_write c4state [1, 2, 3, 4, 5]).2.2.1 "PUT" "/p" 4 rfl (by decide)
  · exact ((c4_write c4state [1, 2, 3, 4]).2.2.2 "PUT" "/p" 4 rfl (by decide) rfl).1 rfl
  · exact ((c4_write c4state [1]).2.2.2 "PUT" "/p" 4 rfl (by decide) rfl).2 (by decide)

/-! ### C9: ReadBuffer invariant and content preservation -/

/-- The ReadBuffer invariant `0 ≤ begin ≤ end ≤ capacity` (the lower bound
is implicit in `Nat`). -/
abbrev Buffer.wf (bu : Buffer) : Prop := bu.b ≤ bu.e ∧ bu.e ≤ bu.d.length

/-- Length of a python slice within bounds. -/
theorem length_pySlice (d : List Nat) (a b : Nat) (hb : b ≤ d.length) :
    (pySlice d a b).length = b - a := by
  simp [pySlice]
  omega

/-- C9: the buffer invariant is preserved by `clear`, `compact`, `exhaust`
and the cursor advances used by the connection (consuming at most the
buffered amount, filling at most the free space); `compact` preserves the
buffered contents and the physical capacity; `exhaust` returns exactly the
filled region and resets both cursors to 0. -/
theorem c9_buffer_invariant (bu : Buffer) :
    (Buffer.wf bu.clear)
      ∧ (bu.wf → Buffer.wf bu.compact)
      ∧ (bu.wf → Buffer.wf bu.exhaust.2)
      ∧ (bu.wf → ∀ k, k ≤ bu.len → Buffer.wf { bu with b := bu.b + k })
      ∧ (bu.wf → ∀ k, k ≤ bu.d.length - bu.e → Buffer.wf { bu with e := bu.e + k })
      ∧ (bu.wf → bu.compact.d.length = bu.d.length
           ∧ pySlice bu.compact.d 0 bu.compact.len = pySlice bu.d bu.b bu.e
           ∧ bu.compact.len = bu.len)
      ∧ (bu.wf → bu.exhaust.1 = pySlice bu.d bu.b bu.e
           ∧ bu.exhaust.2.b = 0 ∧ bu.exhaust.2.e = 0) := by
  have hslice : bu.wf → (pySlice bu.d bu.b bu.e).length = bu.e - bu.b := fun hwf =>
    length_pySlice bu.d bu.b bu.e hwf.2
  refine ⟨?_, ?_, ?_, ?_, ?_, ?_, ?_⟩
  · exact ⟨Nat.le_refl 0, Nat.zero_le _⟩
  · intro hwf
    have hlen := hslice hwf
    by_cases hb : bu.b = 0
    · simpa [Buffer.compact, hb] using hwf
    · simp only [Buffer.compact, if_neg hb, Buffer.wf, List.length_append,
        List.length_replicate]
      exact ⟨Nat.zero_le _, by omega⟩
  · intro hwf
    by_cases hb : bu.b = 0 <;>
      simp [Buffer.exhaust, hb, Buffer.wf]
  · intro hwf k hk
    simp only [Buffer.len] at hk
    have h1 : bu.b + k ≤ bu.e := by omega
    exact ⟨h1, hwf.2⟩
  · intro hwf k hk
    have h1 : bu.b ≤ bu.e + k := by omega
    have h2 : bu.e + k ≤ bu.d.length := by omega
    exact ⟨h1, h2⟩
  · intro hwf
    have hlen := hslice hwf
    by_cases hb : bu.b = 0
    · simp [Buffer.compact, hb, Buffer.len, pySlice]
    · refine ⟨?_, ?_, ?_⟩
      · simp only [Buffer.compact, if_neg hb, List.length_append, List.length_replicate]
        omega
      · simp only [Buffer.compact, if_neg hb, Buffer.len, Nat.sub_zero]
        rw [show pySlice (pySlice bu.d bu.b bu.e ++
              List.replicate (bu.d.length - (pySlice bu.d bu.b bu.e).length) 0) 0
              (pySlice bu.d bu.b bu.e).length
            = ((pySlice bu.d bu.b bu.e ++
              List.replicate (bu.d.length - (pySlice bu.d bu.b bu.e).length) 0).take
              (pySlice bu.d bu.b bu.e).length) from by simp [pySlice]]
        exact List.take_left _ _
      · simp only [Buffer.compact, if_neg hb, Buffer.len, Nat.sub_zero]
        omega
  · intro hwf
    by_cases hb : bu.b = 0
    · simp [Buffer.exhaust, hb, pySlice]
    · simp [Buffer.exhaust, hb]

/-- A concrete well-formed buffer for the C9 witness. -/
def c9buf : Buffer := ⟨[10, 11, 12, 13, 14, 15], 2, 5⟩

/-- Witness for C9 at a concrete buffer. -/
theorem c9_witness :
    Buffer.wf c9buf.compact
      ∧ pySlice c9buf.compact.d 0 c9buf.compact.len = pySlice c9buf.d c9buf.b c9buf.e
      ∧ c9buf.exhaust.1 = pySlice c9buf.d c9buf.b c9buf.e := by
  have h := c9_buffer_invariant c9buf
  have hwf : Buffer.wf c9buf := ⟨by decide, by decide⟩
  exact ⟨h.2.1 hwf, (h.2.2.2.2.2.1 hwf).2.1, (h.2.2.2.2.2.2 hwf).1⟩

/-! ### C1: request serialization -/

/-- Updating a present key rewrites the stored entry in place. -/
theorem find?_update_eq (t : CIDict) (lk k v q : String) (hq : pyLower q = lk)
    (ht : t.any (fun e => e.1 == lk) = true) :
    (t.map (fun ent => if ent.1 == lk then (lk, k, v) else ent)).find?
        (fun ent => ent.1 == pyLower q)
      = some (lk, k, v) := by
  induction t with
  | nil => simp at ht
  | cons ent t ih =>
    simp only [List.map_cons]
    by_cases hent : (ent.1 == lk) = true
    · rw [if_pos hent]
      apply List.find?_cons_of_pos
      simp [hq]
    · rw [if_neg hent]
      rw [List.find?_cons_of_neg]
      · apply ih
        simpa [List.any_cons, hent] using ht
      · rw [hq]
        simpa using hent

/-- Updating a key with a different lowercase form leaves lookups alone. -/
theorem find?_update_ne (t : CIDict) (lk k v q : String) (hq : pyLower q ≠ lk) :
    (t.map (fun ent => if ent.1 == lk then (lk, k, v) else ent)).find?
        (fun ent => ent.1 == pyLower q)
      = t.find? (fun ent => ent.1 == pyLower q) := by
  induction t with
  | nil => simp
  | cons ent t ih =>
    simp only [List.map_cons]
    by_cases hent : (ent.1 == lk) = true
    · have hek : ent.1 = lk := by simpa using hent
      have h1 : (((lk, k, v) : String × String × String).1 == pyLower q) = false := by
        simp only [beq_eq_false_iff_ne, ne_eq]
        exact fun h => hq h.symm
      have h2 : (ent.1 == pyLower q) = false := by
        rw [hek]
        simp only [beq_eq_false_iff_ne, ne_eq]
        exact fun h => hq h.symm
      rw [if_pos hent]
      simp only [List.find?_cons, h1, h2]
      exact ih
    · rw [if_neg hent]
      cases hqe : (ent.1 == pyLower q) <;>
        simp only [List.find?_cons, hqe, ih]

/-- Appending a fresh entry: lookups fall through when the old list misses. -/
theorem find?_append_single (t : CIDict) (x : String × String × String)
    (p : String × String × String → Bool) (h : t.find? p = none) :
    (t ++ [x]).find? p = if p x then some x else none := by
  induction t with
  | nil =>
    cases hpx : p x <;>
      simp [List.find?_cons, hpx]
  | cons ent t ih =>
    cases hpe : p ent
    · simp only [List.find?_cons, hpe] at h
      simp only [List.cons_append, List.find?_cons, hpe]
      exact ih h
    · simp only [List.find?_cons, hpe] at h
      simp at h

/-- Lookup after `cidSet` of a key with the same lowercase form. -/
theorem cidGet_set_eq (d : CIDict) (k v q : String) (hq : pyLower q = pyLower k) :
    cidGet (cidSet d k v) q = some v := by
  unfold cidSet cidGet
  by_cases hany : d.any (fun ent => ent.1 == pyLower k) = true
  · simp only [hany, if_true]
    rw [find?_update_eq d (pyLower k) k v q hq hany]
    rfl
  · simp only [hany, if_false, Bool.false_eq_true]
    have hnone : d.find? (fun ent => ent.1 == pyLower q) = none := by
      rw [List.find?_eq_none]
      intro x hx
      intro hcon
      exact hany (List.any_eq_true.mpr ⟨x, hx, by rw [← hq]; exact hcon⟩)
    rw [find?_append_single d _ _ hnone]
    simp [hq]

/-- Lookup after `cidSet` of a key with a different lowercase form. -/
theorem cidGet_set_ne (d : CIDict) (k v q : String) (hq : pyLower q ≠ pyLower k) :
    cidGet (cidSet d k v) q = cidGet d q := by
  unfold cidSet cidGet
  by_cases hany : d.any (fun ent => ent.1 == pyLower k) = true
  · simp only [hany, if_true]
    rw [find?_update_ne d (pyLower k) k v q hq]
  · simp only [hany, if_false, Bool.false_eq_true]
    cases hfind : d.find? (fun ent => ent.1 == pyLower q)
    · rw [find?_append_single d _ _ hfind]
      have : ((pyLower k, k, v).1 == pyLower q) = false :=
        beq_eq_false_iff_ne.mpr fun h => hq h.symm
      simp [this]
    · rw [List.find?_append, hfind]
      simp

/-- Containment is definedness of lookup. -/
theorem cidContains_eq_isSome (d : CIDict) (q : String) :
    cidContains d q = (cidGet d q).isSome := by
  unfold cidContains cidGet
  cases hfind : d.find? (fun ent => ent.1 == pyLower q)
  · rw [List.find?_eq_none] at hfind
    simp only [Option.map, Option.isSome]
    rw [List.any_eq_false]
    intro x hx
    exact hfind x hx
  · simp only [Option.map, Option.isSome]
    rw [List.any_eq_true]
    have h1 := List.mem_of_find?_eq_some hfind
    have h2 := List.find?_some hfind
    exact ⟨_, h1, h2⟩

/-- Containment after `cidSet`. -/
theorem cidContains_set (d : CIDict) (k v q : String) :
    cidContains (cidSet d k v) q
      = (cidContains d q || (pyLower q == pyLower k)) := by
  by_cases hq : pyLower q = pyLower k
  · rw [cidContains_eq_isSome, cidGet_set_eq d k v q hq]
    simp [hq]
  · rw [cidContains_eq_isSome, cidGet_set_ne d k v q hq, ← cidContains_eq_isSome]
    simp [hq]

/-- Structure of `b'\r\n'.join([line] + headers + [b''] + [body])`. -/
theorem sepJoin_structure (a b : List Nat) (hls : List (List Nat)) :
    sepJoin CRLF ([a] ++ hls ++ [[]] ++ [b])
      = a ++ CRLF ++ hls.foldr (fun l acc => l ++ CRLF ++ acc) [] ++ CRLF ++ b := by
  induction hls generalizing a with
  | nil => simp [sepJoin]
  | cons l t ih =>
    have hstep : sepJoin CRLF ([a] ++ (l :: t) ++ [[]] ++ [b])
        = a ++ CRLF ++ sepJoin CRLF ([l] ++ t ++ [[]] ++ [b]) := by
      simp only [List.cons_append, List.singleton_append]
      rfl
    rw [hstep, ih l]
    simp [List.append_assoc]

/-- The serialization described by the specification (§4.4): request line,
CRLF, one `Key: Value` line per header with CRLF, blank line, body bytes,
all latin-1. -/
def wireSerialization (method path : String) (h : CIDict) (bodyBytes : List Nat) : List Nat :=
  latin1 (method ++ " " ++ path ++ " HTTP/1.1") ++ CRLF
    ++ (cidItems h).foldr (fun kv acc => latin1 (kv.1 ++ ": " ++ kv.2) ++ CRLF ++ acc) []
    ++ CRLF ++ bodyBytes

/-- The byte string built by `co_send_request` matches the specification
serialization of its final header map. -/
theorem requestBytes_eq_wire (md5b64 : List Nat → String) (c : Conn) (method path : String)
    (hs : List (String × String)) (body : Body) (e100 : Bool) :
    requestBytes md5b64 c method path hs body e100
      = wireSerialization method path (finalHeaders md5b64 c hs body e100)
          (inlineBody body) := by
  unfold requestBytes wireSerialization headerLines
  rw [sepJoin_structure, List.foldr_map]

/-- Keys other than `Host`/`Accept-Encoding`/`Connection` look through the
connection-wide header mutations. -/
theorem cidGet_stdHeaders (c : Conn) (d : CIDict) (q : String)
    (h1 : pyLower q ≠ "host") (h2 : pyLower q ≠ "accept-encoding")
    (h3 : pyLower q ≠ "connection") :
    cidGet (stdHeaders c d) q = cidGet d q := by
  have e1 : pyLower "Host" = "host" := by decide
  have e2 : pyLower "Accept-Encoding" = "accept-encoding" := by decide
  have e3 : pyLower "Connection" = "connection" := by decide
  have n1 : pyLower q ≠ pyLower "Host" := by rw [e1]; exact h1
  have n2 : pyLower q ≠ pyLower "Accept-Encoding" := by rw [e2]; exact h2
  have n3 : pyLower q ≠ pyLower "Connection" := by rw [e3]; exact h3
  unfold stdHeaders
  by_cases hc : cidContains (cidSet (cidSet d "Host" (hostHeaderVal c))
      "Accept-Encoding" "identity") "Connection" = true
  · simp only [hc, if_true]
    rw [cidGet_set_ne _ _ _ _ n2, cidGet_set_ne _ _ _ _ n1]
  · simp only [hc, if_false, Bool.false_eq_true]
    rw [cidGet_set_ne _ _ _ _ n3, cidGet_set_ne _ _ _ _ n2, cidGet_set_ne _ _ _ _ n1]

/-- The client always pins `Accept-Encoding: identity`. -/
theorem cidGet_stdHeaders_ae (c : Conn) (d : CIDict) :
    cidGet (stdHeaders c d) "Accept-Encoding" = some "identity" := by
  unfold stdHeaders
  have heq : pyLower "Accept-Encoding" = pyLower "Accept-Encoding" := rfl
  have hne : pyLower "Accept-Encoding" ≠ pyLower "Connection" := by decide
  by_cases hc : cidContains (cidSet (cidSet d "Host" (hostHeaderVal c))
      "Accept-Encoding" "identity") "Connection" = true
  · simp only [hc, if_true]
    rw [cidGet_set_eq _ _ _ _ heq]
  · simp only [hc, if_false, Bool.false_eq_true]
    rw [cidGet_set_ne _ _ _ _ hne, cidGet_set_eq _ _ _ _ heq]

/-- Keys other than the body-dependent ones look through the
body-dependent header mutations. -/
theorem cidGet_bodyHeaders (md5b64 : List Nat → String) (hs : List (String × String))
    (body : Body) (e100 : Bool) (q : String)
    (hcl : pyLower q ≠ "content-length") (hmd : pyLower q ≠ "content-md5")
    (hex : pyLower q ≠ "expect") :
    cidGet (bodyHeaders md5b64 hs body e100) q = cidGet (mkCID hs) q := by
  have ncl : pyLower q ≠ pyLower "Content-Length" := by
    rw [show pyLower "Content-Length" = "content-length" from by decide]; exact hcl
  have nmd : pyLower q ≠ pyLower "Content-MD5" := by
    rw [show pyLower "Content-MD5" = "content-md5" from by decide]; exact hmd
  have nex : pyLower q ≠ pyLower "Expect" := by
    rw [show pyLower "Expect" = "expect" from by decide]; exact hex
  cases body with
  | noBody => unfold bodyHeaders; rw [cidGet_set_ne _ _ _ _ ncl]
  | following len =>
    unfold bodyHeaders
    by_cases he : e100 = true
    · simp only [he, if_true]
      rw [cidGet_set_ne _ _ _ _ ncl, cidGet_set_ne _ _ _ _ nex]
    · simp only [he, if_false, Bool.false_eq_true]
      rw [cidGet_set_ne _ _ _ _ ncl]
  | bytes data =>
    unfold bodyHeaders
    by_cases hmd5 : cidContains (cidSet (mkCID hs) "Content-Length"
        (toString data.length)) "Content-MD5" = true
    · simp only [hmd5, if_true]
      rw [cidGet_set_ne _ _ _ _ ncl]
    · simp only [hmd5, if_false, Bool.false_eq_true]
      rw [cidGet_set_ne _ _ _ _ nmd, cidGet_set_ne _ _ _ _ ncl]

/-- Containment of non-body-dependent keys through the body mutations. -/
theorem cidContains_bodyHeaders (md5b64 : List Nat → String) (hs : List (String × String))
    (body : Body) (e100 : Bool) (q : String)
    (hcl : pyLower q ≠ "content-length") (hmd : pyLower q ≠ "content-md5")
    (hex : pyLower q ≠ "expect") :
    cidContains (bodyHeaders md5b64 hs body e100) q = cidContains (mkCID hs) q := by
  rw [cidContains_eq_isSome, cidGet_bodyHeaders md5b64 hs body e100 q hcl hmd hex,
    ← cidContains_eq_isSome]

/-- The `Content-Length` value set by the client, per body kind. -/
theorem cidGet_bodyHeaders_cl (md5b64 : List Nat → String) (hs : List (String × String))
    (body : Body) (e100 : Bool) :
    cidGet (bodyHeaders md5b64 hs body e100) "Content-Length"
      = some (match body with
              | .noBody => "0"
              | .bytes data => toString data.length
              | .following len => toString (len.getD 0)) := by
  have heq : pyLower "Content-Length" = pyLower "Content-Length" := rfl
  have nmd : pyLower "Content-Length" ≠ pyLower "Content-MD5" := by decide
  cases body with
  | noBody => unfold bodyHeaders; rw [cidGet_set_eq _ _ _ _ heq]
  | following len =>
    unfold bodyHeaders
    by_cases he : e100 = true <;>
      simp only [he, if_true, if_false, Bool.false_eq_true] <;>
      rw [cidGet_set_eq _ _ _ _ heq]
  | bytes data =>
    unfold bodyHeaders
    by_cases hmd5 : cidContains (cidSet (mkCID hs) "Content-Length"
        (toString data.length)) "Content-MD5" = true
    · simp only [hmd5, if_true]
      rw [cidGet_set_eq _ _ _ _ heq]
    · simp only [hmd5, if_false, Bool.false_eq_true]
      rw [cidGet_set_ne _ _ _ _ nmd, cidGet_set_eq _ _ _ _ heq]

/-- C1: a `send_request` call that completes without error emits exactly
the §4.4 serialization: request line, one header line per entry of the
final header map in insertion order, blank line, inline body bytes, all
latin-1; and in that map the client has set `Content-Length` per body
kind, `Content-MD5` for inline bodies unless the caller provided it
(preserving a caller-provided value), `Accept-Encoding: identity`, and
`Connection: keep-alive` unless the caller set `Connection`. -/
theorem c1_send_serialization (md5b64 : List Nat → String) (c : Conn)
    (method path : String) (hs : List (String × String)) (body : Body)
    (e100 : Bool) (c1 : Conn)
    (hok : co_send_request md5b64 c method path hs body e100 = .ok c1) :
    c1.output
        = c.output ++ wireSerialization method path
            (finalHeaders md5b64 c hs body e100) (inlineBody body)
      ∧ (body = .noBody →
           cidGet (finalHeaders md5b64 c hs body e100) "Content-Length" = some "0")
      ∧ (∀ data, body = .bytes data →
           cidGet (finalHeaders md5b64 c hs body e100) "Content-Length"
             = some (toString data.length))
      ∧ (∀ n, body = .following (some n) →
           cidGet (finalHeaders md5b64 c hs body e100) "Content-Length"
             = some (toString n))
      ∧ (∀ data, body = .bytes data → cidContains (mkCID hs) "Content-MD5" = false →
           cidGet (finalHeaders md5b64 c hs body e100) "Content-MD5"
             = some (md5b64 data))
      ∧ (∀ data, body = .bytes data → cidContains (mkCID hs) "Content-MD5" = true →
           cidGet (finalHeaders md5b64 c hs body e100) "Content-MD5"
             = cidGet (mkCID hs) "Content-MD5")
      ∧ cidGet (finalHeaders md5b64 c hs body e100) "Accept-Encoding" = some "identity"
      ∧ (cidContains (mkCID hs) "Connection" = false →
           cidGet (finalHeaders md5b64 c hs body e100) "Connection"
             = some "keep-alive") := by
  have hstdne : ∀ q, pyLower q ≠ "host" → pyLower q ≠ "accept-encoding" →
      pyLower q ≠ "connection" →
      cidGet (finalHeaders md5b64 c hs body e100) q
        = cidGet (bodyHeaders md5b64 hs body e100) q := fun q a b d =>
    cidGet_stdHeaders c _ q a b d
  refine ⟨?_, ?_, ?_, ?_, ?_, ?_, ?_, ?_⟩
  · -- the emitted bytes
    have hout : c1.output
        = (if c.sock then c else connect c).output
            ++ requestBytes md5b64 (if c.sock then c else connect c)
                method path hs body e100 := by
      unfold co_send_request at hok
      by_cases hg1 : (e100 && !body.isFollowing) = true
      · rw [if_pos hg1] at hok; cases hok
      · rw [if_neg hg1] at hok
        by_cases hg2 : ((if c.sock then c else connect c).outRemaining).isSome = true
        · rw [if_pos hg2] at hok; cases hok
        · rw [if_neg hg2] at hok
          have hsock : (if c.sock then c else connect c).sock = true := by
            by_cases hcs : c.sock = true
            · simp [hcs]
            · simp only [hcs, if_false, Bool.false_eq_true]
              rfl
          cases body with
          | noBody =>
            simp only [coSend, hsock, if_true, Option.isNone_none, Bool.true_or] at hok
            have hc1 := (Except.ok.injEq _ _).mp hok
            rw [← hc1]
          | bytes data =>
            simp only [coSend, hsock, if_true, Option.isNone_none, Bool.true_or] at hok
            have hc1 := (Except.ok.injEq _ _).mp hok
            rw [← hc1]
          | following len =>
            cases len with
            | none => cases hok
            | some n =>
              cases he : e100 with
              | true =>
                rw [he] at hok
                simp only [coSend, hsock, if_true, Option.isNone_some, Bool.false_or] at hok
                have hc1 := (Except.ok.injEq _ _).mp hok
                rw [← hc1]
              | false =>
                rw [he] at hok
                simp only [coSend, hsock, if_true, Option.isNone_some, Bool.false_or,
                  if_false, Bool.false_eq_true] at hok
                have hc1 := (Except.ok.injEq _ _).mp hok
                rw [← hc1]
    by_cases hcs : c.sock = true
    · rw [hout, requestBytes_eq_wire]
      simp [hcs]
    · simp only [Bool.not_eq_true] at hcs
      rw [hout, requestBytes_eq_wire]
      simp only [hcs, if_false, Bool.false_eq_true]
      rfl
  · intro hb
    rw [hstdne _ (by decide) (by decide) (by decide), cidGet_bodyHeaders_cl, hb]
  · intro data hb
    rw [hstdne _ (by decide) (by decide) (by decide), cidGet_bodyHeaders_cl, hb]
  · intro n hb
    rw [hstdne _ (by decide) (by decide) (by decide), cidGet_bodyHeaders_cl, hb]
    rfl
  · intro data hb hmd5
    rw [hstdne _ (by decide) (by decide) (by decide)]
    subst hb
    unfold bodyHeaders
    have hcc : cidContains (cidSet (mkCID hs) "Content-Length"
        (toString data.length)) "Content-MD5" = false := by
      rw [cidContains_set, hmd5]
      decide
    simp only [hcc, if_false, Bool.false_eq_true]
    rw [cidGet_set_eq _ _ _ _ rfl]
  · intro data hb hmd5
    rw [hstdne _ (by decide) (by decide) (by decide)]
    subst hb
    unfold bodyHeaders
    have hcc : cidContains (cidSet (mkCID hs) "Content-Length"
        (toString data.length)) "Content-MD5" = true := by
      rw [cidContains_set, hmd5]
      decide
    simp only [hcc, if_true]
    rw [cidGet_set_ne _ _ _ _ (by decide)]
  · exact cidGet_stdHeaders_ae c _
  · intro hconn
    unfold finalHeaders stdHeaders
    have hc3 : cidContains (cidSet (cidSet (bodyHeaders md5b64 hs body e100)
        "Host" (hostHeaderVal c)) "Accept-Encoding" "identity") "Connection" = false := by
      rw [cidContains_set, cidContains_set,
        cidContains_bodyHeaders md5b64 hs body e100 _ (by decide) (by decide) (by decide),
        hconn]
      decide
    simp only [hc3, if_false, Bool.false_eq_true]
    rw [cidGet_set_eq _ _ _ _ rfl]

/-- Witness for C1: a concrete bodyless GET on a fresh connection. -/
theorem c1_witness :
    ({ connEx with output := requestBytes (fun _ => "M") connEx "GET" "/x" [] .noBody false,
                   pending := [("GET", "/x", none)] } : Conn).output
      = connEx.output ++ wireSerialization "GET" "/x"
          (finalHeaders (fun _ => "M") connEx [] .noBody false) [] := by
  have h := c1_send_serialization (fun _ => "M") connEx "GET" "/x" [] .noBody false
    { connEx with output := requestBytes (fun _ => "M") connEx "GET" "/x" [] .noBody false,
                  pending := [("GET", "/x", none)] } rfl
  exact h.1

/-! ### C2: identity body read -/

/-- The connection state reached when the response header block ends
exactly at the 64 KiB buffer boundary: both cursors sit at the capacity,
an identity body of 5 bytes is still owed, and one request is pending.
(Reachable: a status line plus a header block whose final `\r\n\r\n` lands
on byte 65536 of the stream leaves `_co_readstr_until` with
`rbuf.b = rbuf.e = 65536`, and `Content-Length: 5` arms the body.) -/
def c2state : Conn :=
  { connEx with
    rbuf := ⟨List.replicate BUFFER_SIZE 0, BUFFER_SIZE, BUFFER_SIZE⟩
    pending := [("GET", "/x", none)]
    inRemaining := some 5
    encoding := .identity }

/-- Core of the C2 counterexample, over an abstract connection whose read
buffer sits exhausted at its capacity with a nonzero begin cursor. -/
theorem co_read_id_boundary (c : Conn) (hin : c.inRemaining = some 5)
    (hsock : c.sock = true) (hinp : c.input = [])
    (hbe : c.rbuf.e ≤ c.rbuf.b) (hcap : c.rbuf.d.length ≤ c.rbuf.e)
    (hb0 : c.rbuf.b ≠ 0) :
    (co_read_id c 3).map (fun r => (r.1, r.2.inRemaining, r.2.pending))
      = .ok ([], some 5, c.pending) := by
  have hlen0 : c.rbuf.len = 0 := by
    unfold Buffer.len
    omega
  simp only [co_read_id, hin]
  rw [if_neg (by decide : ¬ ((5 : Int) = 0))]
  rw [if_neg (by simp [hsock] : ¬ (!c.sock) = true)]
  rw [hinp]
  simp only [List.length_nil, Nat.zero_add, readIdLoopF]
  rw [if_neg (fun h => absurd h.2 (Nat.not_lt.mpr hcap))]
  dsimp only
  rw [hlen0]
  have hm1 : min (min (3 : Int) 5) ((0 : Nat) : Int) = 0 := by decide
  rw [hm1]
  rw [if_neg (by decide : ¬ ((0 : Int) < ((0 : Nat) : Int)))]
  unfold Buffer.exhaust
  rw [if_neg hb0]
  have hsl : pySlice c.rbuf.d c.rbuf.b c.rbuf.e = [] := by
    unfold pySlice
    rw [Nat.sub_eq_zero_of_le hbe]
    exact List.take_zero _
  rw [hsl]
  rfl

theorem c2_read_empty_mid_body :
    (co_read c2state 3).map (fun r => (r.1, r.2.inRemaining, r.2.pending))
      = .ok ([], some 5, [("GET", "/x", none)]) := by
  have hin : c2state.inRemaining = some 5 := rfl
  have henc : c2state.encoding = .identity := rfl
  have hcore := co_read_id_boundary c2state hin rfl rfl (Nat.le_refl _)
    (by simp [c2state, connEx]) (by decide)
  simp only [co_read, hin, henc]
  rw [if_neg (by decide : ¬ ((3 : Int) = 0))]
  rw [hcore]
  rfl

/-! ### Characterization of the byte search, and evaluation lemmas for the
delimiter-bounded read -/

/-- `bytesFindAux` finds nothing iff no window in range matches. -/
theorem bytesFindAux_none_iff (d sub : List Nat) (stop : Nat) :
    ∀ (fuel s : Nat), stop + 1 ≤ fuel + s →
      (bytesFindAux d sub stop fuel s = none ↔
        ∀ j, s ≤ j → j + sub.length ≤ stop → pySlice d j (j + sub.length) ≠ sub) := by
  intro fuel
  induction fuel with
  | zero =>
    intro s hfuel
    simp only [bytesFindAux]
    constructor
    · intro _ j hj hjs
      omega
    · intro _
      trivial
  | succ fuel ih =>
    intro s hfuel
    simp only [bytesFindAux]
    by_cases hg : s + sub.length ≤ stop
    · rw [if_pos hg]
      by_cases hm : pySlice d s (s + sub.length) = sub
      · rw [if_pos hm]
        constructor
        · intro h
          cases h
        · intro hall
          exact absurd hm (hall s (Nat.le_refl s) hg)
      · rw [if_neg hm]
        rw [ih (s+1) (by omega)]
        constructor
        · intro hall j hj hjs
          rcases Nat.eq_or_lt_of_le hj with heq | hlt
          · rw [← heq]
            exact hm
          · exact hall j hlt hjs
        · intro hall j hj hjs
          exact hall j (by omega) hjs
    · rw [if_neg hg]
      constructor
      · intro _ j hj hjs
        omega
      · intro _
        trivial

/-- `bytesFindAux` returns `some i` iff `i` is the least in-range match. -/
theorem bytesFindAux_some_iff (d sub : List Nat) (stop : Nat) :
    ∀ (fuel s i : Nat), stop + 1 ≤ fuel + s →
      (bytesFindAux d sub stop fuel s = some i ↔
        (s ≤ i ∧ i + sub.length ≤ stop ∧ pySlice d i (i + sub.length) = sub ∧
         ∀ j, s ≤ j → j < i → pySlice d j (j + sub.length) ≠ sub)) := by
  intro fuel
  induction fuel with
  | zero =>
    intro s i hfuel
    simp only [bytesFindAux]
    constructor
    · intro h
      cases h
    · intro ⟨h1, h2, _, _⟩
      omega
  | succ fuel ih =>
    intro s i hfuel
    simp only [bytesFindAux]
    by_cases hg : s + sub.length ≤ stop
    · rw [if_pos hg]
      by_cases hm : pySlice d s (s + sub.length) = sub
      · rw [if_pos hm]
        constructor
        · intro h
          cases h
          exact ⟨Nat.le_refl _, hg, hm, fun j hj hlt => by omega⟩
        · intro ⟨h1, _, _, hmin⟩
          rcases Nat.eq_or_lt_of_le h1 with heq | hlt
          · rw [heq]
          · exact absurd hm (hmin s (Nat.le_refl _) hlt)
      · rw [if_neg hm]
        rw [ih (s+1) i (by omega)]
        constructor
        · intro ⟨h1, h2, h3, hmin⟩
          refine ⟨by omega, h2, h3, ?_⟩
          intro j hj hlt
          rcases Nat.eq_or_lt_of_le hj with heq | hlt2
          · rw [← heq]
            exact hm
          · exact hmin j hlt2 hlt
        · intro ⟨h1, h2, h3, hmin⟩
          have hne : i ≠ s := by
            intro heq
            rw [heq] at h3
            exact hm h3
          exact ⟨by omega, h2, h3, fun j hj hlt => hmin j (by omega) hlt⟩
    · rw [if_neg hg]
      constructor
      · intro h
        cases h
      · intro ⟨h1, h2, _, _⟩
        omega

/-- Characterization of `bytesFind` finding nothing. -/
theorem bytesFind_none_iff (d sub : List Nat) (start stop : Nat) :
    bytesFind d sub start stop = none ↔
      ∀ j, start ≤ j → j + sub.length ≤ stop → pySlice d j (j + sub.length) ≠ sub :=
  bytesFindAux_none_iff d sub stop (stop + 1) start (by omega)

/-- Characterization of `bytesFind` finding the least match. -/
theorem bytesFind_some_iff (d sub : List Nat) (start stop i : Nat) :
    bytesFind d sub start stop = some i ↔
      (start ≤ i ∧ i + sub.length ≤ stop ∧ pySlice d i (i + sub.length) = sub ∧
       ∀ j, start ≤ j → j < i → pySlice d j (j + sub.length) ≠ sub) :=
  bytesFindAux_some_iff d sub stop (stop + 1) start i (by omega)

/-- A slice that stays inside the left part of an append ignores the right
part. -/
theorem pySlice_append_left (l r : List Nat) (a b : Nat) (hb : b ≤ l.length) :
    pySlice (l ++ r) a b = pySlice l a b := by
  unfold pySlice
  by_cases ha : a ≤ l.length
  · rw [List.drop_append_of_le_length ha, List.take_append_of_le_length]
    rw [List.length_drop]
    omega
  · have hba : b - a = 0 := by omega
    rw [hba]
    exact (List.take_zero _).trans (List.take_zero _).symm

/-- A search bounded inside the left part of an append ignores the right
part. -/
theorem bytesFind_append_left (l r sub : List Nat) (s t : Nat) (ht : t ≤ l.length) :
    bytesFind (l ++ r) sub s t = bytesFind l sub s t := by
  cases hres : bytesFind l sub s t with
  | none =>
    rw [bytesFind_none_iff] at hres ⊢
    intro j hj hjs
    rw [pySlice_append_left l r j (j + sub.length) (Nat.le_trans hjs ht)]
    exact hres j hj hjs
  | some i =>
    rw [bytesFind_some_iff] at hres ⊢
    obtain ⟨h1, h2, h3, hmin⟩ := hres
    refine ⟨h1, h2, ?_, ?_⟩
    · rw [pySlice_append_left l r i (i + sub.length) (Nat.le_trans h2 ht)]
      exact h3
    · intro j hj hlt
      rw [pySlice_append_left l r j (j + sub.length) (by omega)]
      exact hmin j hj hlt

/-- Evaluation of `_co_readstr_until` when the delimiter is already inside
the buffered region `[b, e)` of a buffer whose payload decomposes as
`inp ++ pad` with `e = inp.length`: the loop finds it on its first
iteration without touching the socket. -/
theorem readstr_buffered (c : Conn) (sub : List Nat) (maxsize : Nat) (i : Nat)
    (inp pad : List Nat)
    (hsock : c.sock = true)
    (hd : c.rbuf.d = inp ++ pad)
    (he : c.rbuf.e = inp.length)
    (hbmax : c.rbuf.e ≤ c.rbuf.b + maxsize)
    (hsub : sub.length < c.rbuf.d.length)
    (hfind : bytesFind inp sub c.rbuf.b inp.length = some i) :
    co_readstr_until c sub maxsize
      = .ok (decodeLatin1 (pySlice inp c.rbuf.b (i + sub.length)),
             { c with rbuf := { c.rbuf with b := i + sub.length } }) := by
  obtain ⟨hij, hie, hisl, himin⟩ := (bytesFind_some_iff inp sub c.rbuf.b inp.length i).mp hfind
  unfold co_readstr_until
  rw [if_neg (by simp [hsock] : ¬ (!c.sock) = true)]
  rw [if_neg (by simp [hsub] : ¬ (!(decide (sub.length < c.rbuf.d.length))) = true)]
  have hfuel : c.input.length + 1 = c.input.length + 1 := rfl
  simp only [readstrLoopF]
  have hstop : min c.rbuf.e (c.rbuf.b + maxsize) = c.rbuf.e := Nat.min_eq_left hbmax
  rw [hstop]
  have hfind2 : bytesFind c.rbuf.d sub c.rbuf.b c.rbuf.e = some i := by
    rw [hd, he, bytesFind_append_left inp pad sub c.rbuf.b inp.length (Nat.le_refl _)]
    exact hfind
  rw [hfind2]
  have hslice : pySlice c.rbuf.d c.rbuf.b (i + sub.length)
      = pySlice inp c.rbuf.b (i + sub.length) := by
    rw [hd]
    exact pySlice_append_left inp pad _ _ hie
  dsimp only
  simp only [if_true]
  rw [hslice]

/-- Evaluation of `_co_readstr_until` from a cleared buffer: one greedy
fill loads the whole available input (which fits the buffer), and the
delimiter is found in it on the second iteration. -/
theorem readstr_fresh (c : Conn) (sub : List Nat) (maxsize : Nat) (i : Nat) (d0 : List Nat)
    (hsock : c.sock = true)
    (hbuf : c.rbuf = ⟨d0, 0, 0⟩)
    (hinp : c.input.length ≤ d0.length)
    (hne : c.input ≠ [])
    (hsub1 : 1 ≤ sub.length) (hsub2 : sub.length < d0.length)
    (hfind : bytesFind c.input sub 0 c.input.length = some i)
    (hmax : i + sub.length ≤ maxsize) :
    co_readstr_until c sub maxsize
      = .ok (decodeLatin1 (c.input.take (i + sub.length)),
             { c with rbuf := ⟨c.input ++ d0.drop c.input.length,
                               i + sub.length, c.input.length⟩,
                      input := [] }) := by
  obtain ⟨hij, hie, hisl, himin⟩ := (bytesFind_some_iff c.input sub 0 c.input.length i).mp hfind
  unfold co_readstr_until
  rw [if_neg (by simp [hsock] : ¬ (!c.sock) = true)]
  have hsubd : sub.length < c.rbuf.d.length := by
    rw [hbuf]
    exact hsub2
  rw [if_neg (by simp [hsubd] : ¬ (!(decide (sub.length < c.rbuf.d.length))) = true)]
  obtain ⟨x, xs, hx⟩ : ∃ x xs, c.input = x :: xs := by
    cases hci : c.input with
    | nil => exact absurd hci hne
    | cons x xs => exact ⟨x, xs, rfl⟩
  -- first iteration: empty buffer, no match in the empty window, greedy fill
  simp only [readstrLoopF, hbuf]
  have hstop1 : min (0 : Nat) (0 + maxsize) = 0 := by omega
  rw [hstop1]
  have hnone : bytesFind d0 sub 0 0 = none := by
    rw [bytesFind_none_iff]
    intro j hj hjs
    omega
  rw [hnone]
  rw [if_neg (by omega : ¬ (0 : Nat) ≠ 0)]
  rw [if_neg (by omega : ¬ (0 : Nat) = d0.length)]
  -- the greedy fill
  unfold tryFill
  simp only [hbuf]
  rw [if_neg (by omega : ¬ d0.length ≤ 0)]
  rw [hx]
  dsimp only
  rw [← hx]
  have hk : min (d0.length - 0) c.input.length = c.input.length := by
    rw [Nat.sub_zero]
    exact Nat.min_eq_right hinp
  rw [hk]
  have hnewD : d0.take 0 ++ c.input.take c.input.length ++ d0.drop (0 + c.input.length)
      = c.input ++ d0.drop c.input.length := by
    rw [List.take_zero, List.take_length, Nat.zero_add]
    simp
  rw [hnewD]
  have hdrop : c.input.drop c.input.length = [] := List.drop_length c.input
  rw [hdrop]
  -- second iteration
  rw [hx]
  simp only [readstrLoopF]
  rw [← hx]
  have he2 : (0 + c.input.length) = c.input.length := Nat.zero_add _
  rw [he2]
  have hstop2 : min c.input.length (0 + maxsize) = min c.input.length maxsize := by
    rw [Nat.zero_add]
  rw [hstop2]
  have hfind2 : bytesFind (c.input ++ d0.drop c.input.length)
      sub 0 (min c.input.length maxsize) = some i := by
    rw [bytesFind_append_left _ _ _ _ _ (Nat.min_le_left _ _)]
    rw [bytesFind_some_iff]
    refine ⟨Nat.zero_le _, le_min hie hmax, hisl, ?_⟩
    intro j hj hlt
    exact himin j hj hlt
  rw [hfind2]
  dsimp only
  simp only [if_true]
  have hsl2 : pySlice (c.input ++ d0.drop c.input.length)
      0 (i + sub.length) = c.input.take (i + sub.length) := by
    rw [pySlice_append_left _ _ _ _ hie]
    unfold pySlice
    rw [List.drop_zero, Nat.sub_zero]
  rw [hsl2]

/-- `_co_read_status` is the status-line parser applied to the line that
`_co_readstr_until` returns. -/
theorem co_read_status_of_readstr (c c1 : Conn) (line : String) (sr : Int × String)
    (h : co_readstr_until c CRLF MAX_LINE_SIZE = .ok (line, c1))
    (hp : statusParseLine line = .ok sr) :
    co_read_status c = .ok (sr, c1) := by
  unfold co_read_status
  rw [h]
  dsimp only
  rw [hp]

/-! ### C5: invalid Transfer-Encoding -/

/-- A fresh connection about to read a response whose `Transfer-Encoding`
is `gzip` and which carries no `Content-Length`. -/
def c5state : Conn :=
  { connEx with
    input := latin1 "HTTP/1.1 200 OK\r\nTransfer-Encoding: gzip\r\n\r\n"
    pending := [("GET", "/", none)] }

/-- The status-line read of the C5 response. -/
theorem c5_status_read :
    co_read_status c5state
      = .ok ((200, "OK"),
             { c5state with
               rbuf := ⟨c5state.input ++ (List.replicate BUFFER_SIZE 0).drop c5state.input.length,
                        17, c5state.input.length⟩,
               input := [] }) := by
  have hrs := readstr_fresh c5state CRLF MAX_LINE_SIZE 15 (List.replicate BUFFER_SIZE 0)
    rfl rfl
    (by rw [List.length_replicate]; decide)
    (by decide)
    (by decide) (by rw [List.length_replicate]; decide)
    (by decide) (by decide)
  rw [show (15 + CRLF.length) = 17 from rfl] at hrs
  rw [show decodeLatin1 (c5state.input.take 17) = "HTTP/1.1 200 OK\r\n" from by decide] at hrs
  exact co_read_status_of_readstr c5state _ _ _ hrs rfl

/-- The header-block read of the C5 response. -/
theorem c5_header_read :
    co_read_header
        { c5state with
          rbuf := ⟨c5state.input ++ (List.replicate BUFFER_SIZE 0).drop c5state.input.length,
                   17, c5state.input.length⟩,
          input := [] }
      = .ok ("Transfer-Encoding: gzip\r\n\r\n",
             { c5state with
               rbuf := ⟨c5state.input ++ (List.replicate BUFFER_SIZE 0).drop c5state.input.length,
                        44, c5state.input.length⟩,
               input := [] }) := by
  have hilen : c5state.input.length = 44 := rfl
  unfold co_read_header
  dsimp only
  rw [if_neg (by simp [Buffer.len, hilen] : ¬ (Buffer.len ⟨c5state.input
    ++ (List.replicate BUFFER_SIZE 0).drop c5state.input.length, 17, c5state.input.length⟩ < 2))]
  dsimp only
  have hpeek : pySlice (c5state.input ++ (List.replicate BUFFER_SIZE 0).drop c5state.input.length)
      17 (17 + 2) = pySlice c5state.input 17 19 := by
    rw [show (17 + 2) = 19 from rfl]
    exact pySlice_append_left _ _ _ _ (by rw [hilen]; decide)
  rw [hpeek]
  rw [if_neg (by decide : ¬ (pySlice c5state.input 17 19 = CRLF))]
  have hrb := readstr_buffered
    { c5state with
      rbuf := ⟨c5state.input ++ (List.replicate BUFFER_SIZE 0).drop c5state.input.length,
               17, c5state.input.length⟩,
      input := [] }
    (CRLF ++ CRLF) MAX_HEADER_SIZE 40 c5state.input
    ((List.replicate BUFFER_SIZE 0).drop c5state.input.length)
    rfl rfl rfl
    (by dsimp only; rw [hilen]; decide)
    (by simp only [List.length_append, List.length_drop, List.length_replicate, hilen]; decide)
    (by decide)
  dsimp only at hrb
  rw [hrb]
  have hhdr : decodeLatin1 (pySlice c5state.input 17 (40 + (CRLF ++ CRLF).length))
      = "Transfer-Encoding: gzip\r\n\r\n" := by decide
  rw [hhdr]
  dsimp only
  rw [show (40 + (CRLF ++ CRLF).length) = 44 from rfl]

/-- One step of the status loop: when the status line and header block
both parse and the status is outside the 1xx informational range, the loop
returns them. -/
theorem statusLoopF_done (parseHdr : String → Headers) (bodySize : Option Nat)
    (fuel : Nat) (c c1 c2 : Conn) (status : Int) (reason hstring : String)
    (hs : co_read_status c = .ok ((status, reason), c1))
    (hh : co_read_header c1 = .ok (hstring, c2))
    (hst : status < 100 ∨ 199 < status) :
    statusLoopF parseHdr bodySize (fuel + 1) c
      = .ok ((status, reason, parseHdr hstring), c2) := by
  simp only [statusLoopF]
  rw [hs]
  dsimp only
  rw [hh]
  dsimp only
  rw [if_pos hst]

/-- Core of the C5 divergence, over an abstract connection: a non-1xx,
non-204/304 response from a non-HEAD request whose `Transfer-Encoding` is
non-empty and neither chunked nor identity, and which carries no
`Content-Length`, makes `co_read_response` fail with `typeError`. -/
theorem co_read_response_typeerror_core (parseHdr : String → Headers)
    (c c2 : Conn) (method path tc : String)
    (status : Int) (reason : String) (header : Headers)
    (hpend : c.pending = (method, path, none) :: [])
    (hin : c.inRemaining = none)
    (hloop : statusLoopF parseHdr none (c.input.length + c.rbuf.len + 1) c
               = .ok ((status, reason, header), c2))
    (hst : ¬ status = 100)
    (hrange : ¬ (status = 204 ∨ status = 304 ∨ (100 ≤ status ∧ status < 200)
                 ∨ method = "HEAD"))
    (htc : hGet header "Transfer-Encoding" = some tc) (htc1 : ¬ tc = "")
    (hch : ¬ pyLower tc = "chunked") (hid : ¬ pyLower tc = "identity")
    (hcl : hGet header "Content-Length" = none) :
    co_read_response parseHdr c = .error .typeError := by
  unfold co_read_response
  rw [hpend]
  dsimp only
  rw [if_neg (by rw [hin]; simp)]
  rw [hloop]
  dsimp only
  rw [if_neg hst]
  dsimp only [Option.isSome]
  rw [if_neg (by simp : ¬ (false = true))]
  rw [htc]
  dsimp only
  rw [if_pos htc1]
  rw [if_neg hch]
  rw [if_pos hid]
  rw [if_neg hrange]
  rw [if_neg (by decide : ¬ ((Encoding.errInvalid : Encoding) = .chunked))]
  rw [if_neg (by
    intro hand
    exact hand.2 rfl)]
  rw [hcl]

/-- C5 (code bug): for the response
`HTTP/1.1 200 OK\r\nTransfer-Encoding: gzip\r\n\r\n` — an invalid
transfer encoding and no `Content-Length` — `read_response` does not
return the status and headers with a deferred `InvalidResponse`: it
crashes with a `TypeError`, because after poisoning the encoding slot the
framing chain still falls through to `int(header['Content-Length'])` with
`header['Content-Length']` being `None`. -/
theorem c5_read_response_typeerror :
    co_read_response simpleHeaderParse c5state = .error .typeError := by
  have hloop := statusLoopF_done simpleHeaderParse none 44 c5state
    { c5state with
      rbuf := ⟨c5state.input ++ (List.replicate BUFFER_SIZE 0).drop c5state.input.length,
               17, c5state.input.length⟩,
      input := [] }
    { c5state with
      rbuf := ⟨c5state.input ++ (List.replicate BUFFER_SIZE 0).drop c5state.input.length,
               44, c5state.input.length⟩,
      input := [] }
    200 "OK" "Transfer-Encoding: gzip\r\n\r\n"
    c5_status_read c5_header_read (Or.inr (by decide))
  rw [show (44 + 1 : Nat) = c5state.input.length + c5state.rbuf.len + 1 from by
        rw [show c5state.input.length = 44 from rfl, show c5state.rbuf.len = 0 from rfl]] at hloop
  rw [show simpleHeaderParse "Transfer-Encoding: gzip\r\n\r\n"
        = [("Transfer-Encoding", "gzip")] from by decide] at hloop
  exact co_read_response_typeerror_core simpleHeaderParse c5state _ "GET" "/" "gzip"
    200 "OK" [("Transfer-Encoding", "gzip")] rfl rfl hloop
    (by decide) (by decide) (by decide) (by decide) (by decide) (by decide) (by decide)

/-! ### C3: the 100-continue handshake -/

/-- One step of the status loop at a 100 Continue status while a pending
body size is declared: the loop returns the informational response. -/
theorem statusLoopF_100 (parseHdr : String → Headers) (n : Nat)
    (fuel : Nat) (c c1 c2 : Conn) (reason hstring : String)
    (hs : co_read_status c = .ok ((100, reason), c1))
    (hh : co_read_header c1 = .ok (hstring, c2)) :
    statusLoopF parseHdr (some n) (fuel + 1) c
      = .ok ((100, reason, parseHdr hstring), c2) := by
  simp only [statusLoopF]
  rw [hs]
  dsimp only
  rw [hh]
  dsimp only
  rw [if_neg (by omega : ¬ ((100 : Int) < 100 ∨ (199 : Int) < 100))]
  rw [if_pos (⟨rfl, rfl⟩ : (some n).isSome = true ∧ (100 : Int) = 100)]

/-- C3: the 100-continue handshake.  (i) `send_request` with a
body-following declaration of `n` bytes and `expect_100` set emits the
serialized request, leaves `outRemaining` at the `WAITING_FOR_100c`
sentinel and pushes `(method, path, some n)` onto the pipelining queue.
(ii) When `read_response` then parses a status of exactly 100 while the
queue head carries that pending body size and the sentinel is in place, it
moves the queue head into `outRemaining` as `(method, path, count n)`,
leaves `inRemaining` null, and returns a descriptor with status 100 and
body length 0. -/
theorem c3_100_continue (md5b64 : List Nat → String) (parseHdr : String → Headers)
    (c cr c2 : Conn) (method path reason : String) (header : Headers)
    (hs0 : List (String × String)) (n : Nat)
    (restR rest2 : List (String × String × Option Nat))
    (hsock : c.sock = true) (hout : c.outRemaining = none)
    (hpendR : cr.pending = (method, path, some n) :: restR)
    (hinR : cr.inRemaining = none)
    (hloop : statusLoopF parseHdr (some n) (cr.input.length + cr.rbuf.len + 1) cr
               = .ok ((100, reason, header), c2))
    (hout2 : c2.outRemaining = some (method, path, .waitingFor100c))
    (hpend2 : c2.pending = (method, path, some n) :: rest2) :
    co_send_request md5b64 c method path hs0 (.following (some n)) true
        = .ok { c with
                output := c.output
                  ++ requestBytes md5b64 c method path hs0 (.following (some n)) true,
                outRemaining := some (method, path, .waitingFor100c),
                pending := c.pending ++ [(method, path, some n)] }
      ∧ co_read_response parseHdr cr
          = .ok (⟨method, path, 100, reason, header, some 0⟩,
                 { c2 with outRemaining := some (method, path, .count n),
                           pending := rest2, inRemaining := none }) := by
  constructor
  · unfold co_send_request
    rw [show (true && !(Body.following (some n)).isFollowing) = false from rfl]
    rw [if_neg Bool.false_ne_true]
    rw [hsock]
    rw [if_pos rfl]
    dsimp only
    rw [hout]
    rw [if_neg (by simp : ¬ ((none : Option (String × String × Remaining)).isSome = true))]
    unfold coSend
    rw [hsock]
    rw [if_pos rfl]
    dsimp only
    rfl
  · unfold co_read_response
    rw [hpendR]
    dsimp only
    rw [if_neg (by rw [hinR]; simp)]
    rw [hloop]
    dsimp only
    rw [if_pos rfl]
    rw [if_neg (by rw [hout2]; simp)]
    rw [hpend2]

/-- A connection that has sent a 100-continue request for a 5-byte body
and is about to read the server's `100 Continue` response. -/
def c3r : Conn :=
  { connEx with
    input := latin1 "HTTP/1.1 100 Continue\r\n\r\n"
    pending := [("PUT", "/up", some 5)]
    outRemaining := some ("PUT", "/up", .waitingFor100c) }

/-- `c3r` after its status line has been consumed. -/
def c3r1 : Conn :=
  { c3r with
    rbuf := ⟨c3r.input ++ (List.replicate BUFFER_SIZE 0).drop c3r.input.length,
             23, c3r.input.length⟩
    input := [] }

/-- `c3r` after the (empty) header block has also been consumed. -/
def c3r2 : Conn :=
  { c3r with
    rbuf := ⟨c3r.input ++ (List.replicate BUFFER_SIZE 0).drop c3r.input.length,
             25, c3r.input.length⟩
    input := [] }

/-- The status-line read of the `100 Continue` response. -/
theorem c3r_status_read : co_read_status c3r = .ok ((100, "Continue"), c3r1) := by
  have hrs := readstr_fresh c3r CRLF MAX_LINE_SIZE 21 (List.replicate BUFFER_SIZE 0)
    rfl rfl
    (by rw [List.length_replicate]; decide)
    (by decide)
    (by decide) (by rw [List.length_replicate]; decide)
    (by decide) (by decide)
  rw [show (21 + CRLF.length) = 23 from rfl] at hrs
  rw [show decodeLatin1 (c3r.input.take 23) = "HTTP/1.1 100 Continue\r\n" from by decide] at hrs
  exact co_read_status_of_readstr c3r c3r1 _ _ hrs rfl

/-- The empty header block of the `100 Continue` response is consumed
through the two-byte peek shortcut. -/
theorem c3r_header_read : co_read_header c3r1 = .ok ("", c3r2) := by
  unfold co_read_header
  rw [show Buffer.len c3r1.rbuf = 2 from rfl]
  rw [if_neg (by decide : ¬ (2 < 2))]
  dsimp only
  rw [show pySlice c3r1.rbuf.d c3r1.rbuf.b (c3r1.rbuf.b + 2) = CRLF from by
        rw [show c3r1.rbuf.d
              = c3r.input ++ (List.replicate BUFFER_SIZE 0).drop c3r.input.length from rfl,
            show c3r1.rbuf.b = 23 from rfl]
        rw [show (23 + 2) = 25 from rfl]
        rw [pySlice_append_left _ _ _ _ (by rw [show c3r.input.length = 25 from rfl])]
        decide]
  rw [if_pos rfl]
  rfl

/-- Witness for C3: a 5-byte `PUT` declared with 100-continue on a fresh
connection, answered by `HTTP/1.1 100 Continue` with no headers. -/
theorem c3_witness :
    co_send_request (fun _ => "M") connEx "PUT" "/up" [] (.following (some 5)) true
        = .ok { connEx with
                output := connEx.output
                  ++ requestBytes (fun _ => "M") connEx "PUT" "/up" []
                      (.following (some 5)) true,
                outRemaining := some ("PUT", "/up", .waitingFor100c),
                pending := connEx.pending ++ [("PUT", "/up", some 5)] }
      ∧ co_read_response simpleHeaderParse c3r
          = .ok (⟨"PUT", "/up", 100, "Continue", simpleHeaderParse "", some 0⟩,
                 { c3r2 with outRemaining := some ("PUT", "/up", .count 5),
                             pending := [], inRemaining := none }) := by
  have hloop := statusLoopF_100 simpleHeaderParse 5 25 c3r c3r1 c3r2 "Continue" ""
    c3r_status_read c3r_header_read
  rw [show (25 + 1 : Nat) = c3r.input.length + c3r.rbuf.len + 1 from by
        rw [show c3r.input.length = 25 from rfl, show c3r.rbuf.len = 0 from rfl]] at hloop
  have h := c3_100_continue (fun _ => "M") simpleHeaderParse connEx c3r c3r2
    "PUT" "/up" "Continue" (simpleHeaderParse "") [] 5 [] []
    rfl rfl rfl rfl hloop rfl rfl
  exact ⟨h.1, h.2⟩

/-! ### C6: status-line parsing -/

/-- C6 (amended): status-line handling of `_co_read_status`.
(a) If the whitespace-split version token does not start with `HTTP/1`,
the parse fails with `UnsupportedResponse` (the line itself may carry
leading whitespace).  (b) If the status token is not an integer, or is an
integer outside [100, 999], the parse fails with `InvalidResponse`.
(c) The reason phrase is the third whitespace-split field, stripped; when
absent the reason is the empty string.  (d) Reading from a cleared buffer,
a status line that fills the whole buffer without completing a CRLF inside
the first `MAX_LINE_SIZE` bytes fails with `InvalidResponse`. -/
theorem c6_status_line_amended :
    (∀ line v s r, pySplit line 2 = [v, s, r] → pyStartsWith v "HTTP/1" = false →
        statusParseLine line = .error .unsupportedResponse)
  ∧ (∀ line v s r, pySplit line 2 = [v, s, r] → pyStartsWith v "HTTP/1" = true →
        pyInt s = none → statusParseLine line = .error .invalidResponse)
  ∧ (∀ line v s r st, pySplit line 2 = [v, s, r] → pyStartsWith v "HTTP/1" = true →
        pyInt s = some st → (st < 100 ∨ 999 < st) →
        statusParseLine line = .error .invalidResponse)
  ∧ (∀ line v s r st, pySplit line 2 = [v, s, r] → pyStartsWith v "HTTP/1" = true →
        pyInt s = some st → 100 ≤ st → st ≤ 999 →
        statusParseLine line = .ok (st, pyStrip r))
  ∧ (∀ line v s st, pySplit line 2 = [v, s] → pyStartsWith v "HTTP/1" = true →
        pyInt s = some st → 100 ≤ st → st ≤ 999 →
        statusParseLine line = .ok (st, ""))
  ∧ (∀ c d0, c.sock = true → c.rbuf = ⟨d0, 0, 0⟩ →
        d0.length ≤ c.input.length → MAX_LINE_SIZE < d0.length →
        bytesFind (c.input.take d0.length) CRLF 0 MAX_LINE_SIZE = none →
        co_read_status c = .error .invalidResponse) := by
  refine ⟨?_, ?_, ?_, ?_, ?_, ?_⟩
  · intro line v s r hsplit hv
    unfold statusParseLine
    rw [hsplit]
    dsimp only
    rw [hv]
    rw [if_pos (by decide : (!false) = true)]
  · intro line v s r hsplit hv hint
    unfold statusParseLine
    rw [hsplit]
    dsimp only
    rw [hv]
    rw [if_neg (by decide : ¬ ((!true) = true))]
    rw [hint]
  · intro line v s r st hsplit hv hint hrange
    unfold statusParseLine
    rw [hsplit]
    dsimp only
    rw [hv]
    rw [if_neg (by decide : ¬ ((!true) = true))]
    rw [hint]
    dsimp only
    rw [if_pos (by
      simp only [Bool.or_eq_true, decide_eq_true_eq]
      exact hrange)]
  · intro line v s r st hsplit hv hint h100 h999
    unfold statusParseLine
    rw [hsplit]
    dsimp only
    rw [hv]
    rw [if_neg (by decide : ¬ ((!true) = true))]
    rw [hint]
    dsimp only
    rw [if_neg (by
      simp only [Bool.or_eq_true, decide_eq_true_eq]
      omega)]
  · intro line v s st hsplit hv hint h100 h999
    unfold statusParseLine
    rw [hsplit]
    dsimp only
    rw [hv]
    rw [if_neg (by decide : ¬ ((!true) = true))]
    rw [hint]
    dsimp only
    rw [if_neg (by
      simp only [Bool.or_eq_true, decide_eq_true_eq]
      omega)]
    rw [show pyStrip "" = "" from rfl]
  · intro c d0 hsock hbuf hinp hbig hnofind
    have hrsu : co_readstr_until c CRLF MAX_LINE_SIZE = .error .chunkTooLong := by
      have hml : MAX_LINE_SIZE = 65535 := rfl
      have hne : c.input ≠ [] := by
        intro hnil
        rw [hnil] at hinp
        simp only [List.length_nil, Nat.le_zero] at hinp
        omega
      obtain ⟨x, xs, hx⟩ : ∃ x xs, c.input = x :: xs := by
        cases hci : c.input with
        | nil => exact absurd hci hne
        | cons x xs => exact ⟨x, xs, rfl⟩
      unfold co_readstr_until
      rw [if_neg (by simp [hsock] : ¬ (!c.sock) = true)]
      have hsubd : CRLF.length < c.rbuf.d.length := by
        rw [hbuf]
        show CRLF.length < d0.length
        have : CRLF.length = 2 := rfl
        omega
      rw [if_neg (by simp [hsubd] : ¬ (!(decide (CRLF.length < c.rbuf.d.length))) = true)]
      simp only [readstrLoopF, hbuf]
      rw [show min (0 : Nat) (0 + MAX_LINE_SIZE) = 0 from by omega]
      rw [show bytesFind d0 CRLF 0 0 = none from by
            rw [bytesFind_none_iff]
            intro j hj hjs
            have : CRLF.length = 2 := rfl
            omega]
      rw [if_neg (by omega : ¬ (0 : Nat) ≠ 0)]
      rw [if_neg (by omega : ¬ (0 : Nat) = d0.length)]
      unfold tryFill
      simp only [hbuf]
      rw [if_neg (by omega : ¬ d0.length ≤ 0)]
      rw [hx]
      dsimp only
      rw [← hx]
      rw [show min (d0.length - 0) c.input.length = d0.length from by
            rw [Nat.sub_zero]
            exact Nat.min_eq_left hinp]
      rw [show d0.take 0 ++ c.input.take d0.length ++ d0.drop (0 + d0.length)
            = c.input.take d0.length from by
            rw [List.take_zero, Nat.zero_add, List.drop_length]
            simp]
      rw [hx]
      simp only [readstrLoopF]
      rw [← hx]
      rw [show (0 + d0.length) = d0.length from Nat.zero_add _]
      rw [show min d0.length (0 + MAX_LINE_SIZE) = MAX_LINE_SIZE from by
            rw [Nat.zero_add]
            exact Nat.min_eq_right (Nat.le_of_lt hbig)]
      rw [show bytesFind (c.input.take d0.length) CRLF 0 MAX_LINE_SIZE = none from hnofind]
      rw [if_pos (by omega : MAX_LINE_SIZE ≠ d0.length)]
    unfold co_read_status
    rw [hrsu]

/-- The bytes of an over-long status line, bar its final newline: 13 header
bytes, 65521 filler bytes and the carriage return. -/
def c6tail : List Nat := latin1 "HTTP/1.1 200 " ++ (List.replicate 65521 97 ++ [13])

/-- A connection whose read buffer holds everything but the final newline
of a 64 KiB status line (one byte before the line already consumed), with
the newline still on the socket. -/
def c6big : Conn := { connEx with rbuf := ⟨0 :: c6tail, 1, 65536⟩, input := [10] }

/-- The 65536-byte status line that `_co_readstr_until` returns on `c6big`. -/
def c6line : String := decodeLatin1 (c6tail ++ [10])

/-- A connection about to read a status line carrying a leading space. -/
def c6a : Conn := { connEx with input := latin1 " HTTP/1.1 200 OK\r\n" }

/-- The length of the over-long line's buffered part. -/
theorem c6tail_length : c6tail.length = 65535 := by
  unfold c6tail
  rw [List.length_append, List.length_append, List.length_replicate,
      show (latin1 "HTTP/1.1 200 ").length = 13 from rfl]
  rfl

/-- The line feed byte does not occur in `c6big`'s buffer. -/
theorem c6_no_lf : ¬ (10 : Nat) ∈ (0 :: c6tail) := by
  intro h
  rcases List.mem_cons.mp h with h0 | h1
  · exact absurd h0 (by decide)
  · unfold c6tail at h1
    rcases List.mem_append.mp h1 with h2 | h3
    · exact absurd h2 (by decide)
    · rcases List.mem_append.mp h3 with h4 | h5
      · have := List.eq_of_mem_replicate h4
        omega
      · exact absurd h5 (by decide)

/-- No CRLF occurs inside `c6big`'s buffer. -/
theorem c6_find1 : bytesFind (0 :: c6tail) CRLF 1 65536 = none := by
  rw [bytesFind_none_iff]
  intro j hj hjs heq
  have hmem : (10 : Nat) ∈ pySlice (0 :: c6tail) j (j + CRLF.length) := by
    rw [heq]
    decide
  unfold pySlice at hmem
  exact c6_no_lf (List.drop_subset _ _ (List.take_subset _ _ hmem))

/-- The unconsumed region of `c6big`'s buffer is `c6tail`. -/
theorem c6_slice1 : pySlice (0 :: c6tail) 1 65536 = c6tail := by
  unfold pySlice
  rw [List.drop_succ_cons, List.drop_zero]
  rw [show (65536 - 1 : Nat) = 65535 from rfl, ← c6tail_length, List.take_length]

/-- The last two buffered bytes of the over-long line. -/
theorem c6_drop2 : c6tail.drop 65533 = [97, 13] := by
  unfold c6tail
  rw [show (65521 : Nat) = 65520 + 1 from rfl, List.replicate_add, List.append_assoc]
  rw [show (65533 : Nat) = (latin1 "HTTP/1.1 200 ").length + 65520 from by
        rw [show (latin1 "HTTP/1.1 200 ").length = 13 from rfl]]
  rw [List.drop_append]
  nth_rewrite 1 [show (65520 : Nat) = (List.replicate 65520 (97 : Nat)).length + 0 from by
        rw [List.length_replicate]]
  rw [List.drop_append, List.drop_zero]
  rfl

/-- Evaluation of `_co_readstr_until` on a full buffer whose delimiter
straddles the buffer boundary: the whole buffer is exhausted into `parts`,
one greedy fill loads the single remaining socket byte, and the straddle
probe finds the delimiter, so the reader succeeds regardless of `maxsize`. -/
theorem readstr_straddle (c : Conn) (sub : List Nat) (maxsize : Nat)
    (d : List Nat) (b x : Nat) (part probe : List Nat) (p : Nat)
    (hsock : c.sock = true)
    (hbuf : c.rbuf = ⟨d, b, d.length⟩)
    (hsubd : sub.length < d.length)
    (hsub2 : 1 < sub.length)
    (hb0 : b ≠ 0)
    (hbmax : d.length ≤ b + maxsize)
    (hfind1 : bytesFind d sub b d.length = none)
    (hinput : c.input = [x])
    (hpart : pySlice d b d.length = part)
    (hprobe : pyJoin [part.drop (part.length - sub.length), [x]] = probe)
    (hfindp : bytesFind probe sub 0 probe.length = some p) :
    co_readstr_until c sub maxsize
      = .ok (decodeLatin1 (pyJoin [part, (x :: d.drop 1).take p]),
             { c with rbuf := ⟨x :: d.drop 1, p, 1⟩, input := [] }) := by
  have hd1 : 1 ≤ d.length := by omega
  unfold co_readstr_until
  rw [if_neg (by simp [hsock] : ¬ (!c.sock) = true)]
  have hsubd' : sub.length < c.rbuf.d.length := by
    rw [hbuf]
    exact hsubd
  rw [if_neg (by simp [hsubd'] : ¬ (!(decide (sub.length < c.rbuf.d.length))) = true)]
  rw [hinput]
  rw [show ([x].length + 1) = (0 + 1) + 1 from rfl]
  simp only [readstrLoopF, hbuf]
  rw [Nat.min_eq_left hbmax]
  rw [hfind1]
  rw [if_neg (by omega : ¬ d.length ≠ d.length)]
  simp only [if_true, List.nil_append, Buffer.exhaust, if_neg hb0]
  rw [hpart]
  have htf : tryFill { c with rbuf := (⟨d, 0, 0⟩ : Buffer) }
      = .ok (some { c with
                    rbuf := (⟨x :: d.drop 1, 0, 1⟩ : Buffer)
                    input := [] }) := by
    unfold tryFill
    dsimp only
    rw [if_neg (by omega : ¬ d.length ≤ 0)]
    rw [hinput]
    dsimp only
    rw [show min (d.length - 0) [x].length = 1 from by
          rw [Nat.sub_zero, show ([x].length) = 1 from rfl]
          exact Nat.min_eq_right hd1]
    rw [List.take_zero, show [x].take 1 = [x] from rfl, show [x].drop 1 = ([] : List Nat) from rfl]
    rw [Nat.zero_add]
    rw [List.nil_append, List.singleton_append]
  rw [htf]
  dsimp only
  rw [if_pos hsub2]
  rw [show ([part].getLastD []) = part from rfl]
  rw [Nat.zero_add]
  rw [show (1 : Nat) ⊓ (sub.length - 1) = 1 from Nat.min_eq_left (by omega)]
  rw [show pySlice (x :: List.drop 1 d) 0 1 = [x] from rfl]
  rw [hprobe]
  rw [hfindp]
  dsimp only
  rw [if_neg (by simp : ¬ ([part] = []))]
  rw [show [part] ++ [pySlice (x :: List.drop 1 d) 0 p]
        = [part, pySlice (x :: List.drop 1 d) 0 p] from rfl]
  rw [show pySlice (x :: List.drop 1 d) 0 p = (x :: List.drop 1 d).take p from by
        unfold pySlice
        rw [List.drop_zero, Nat.sub_zero]]


/-- `_join` of two parts whose first alone overflows the under-allocated
`len(parts)^2`-byte array: the slice assignments extend the array, so the
result is the plain concatenation with no zero padding. -/
theorem pyJoin_pair (a b : List Nat) (h4 : 4 ≤ a.length) :
    pyJoin [a, b] = a ++ b := by
  unfold pyJoin pySliceAssign
  rw [show ([a, b] : List (List Nat)).length * ([a, b] : List (List Nat)).length = 4 from rfl]
  simp only [List.foldl_cons, List.foldl_nil]
  rw [List.take_zero, List.nil_append, Nat.zero_add]
  rw [List.drop_eq_nil_of_le (by rw [List.length_replicate]; omega)]
  rw [List.append_nil, List.take_length]
  rw [List.drop_eq_nil_of_le (by omega : a.length ≤ a.length + b.length)]
  rw [List.append_nil]

/-- On `c6big`, the line reader crosses the buffer boundary through the
straddle probe and returns the complete 65536-byte line even though
`maxsize` is `MAX_LINE_SIZE` = 65535. -/
theorem c6_straddle_eval :
    co_readstr_until c6big CRLF MAX_LINE_SIZE
      = .ok (c6line, { c6big with rbuf := ⟨10 :: c6tail, 1, 1⟩, input := [] }) := by
  have h := readstr_straddle c6big CRLF MAX_LINE_SIZE (0 :: c6tail) 1 10 c6tail [97, 13, 10, 0] 1
    rfl
    (by rw [List.length_cons, c6tail_length]; rfl)
    (by rw [List.length_cons, c6tail_length]; decide)
    (by decide)
    (by decide)
    (by rw [List.length_cons, c6tail_length]; decide)
    (by rw [List.length_cons, c6tail_length]; exact c6_find1)
    rfl
    (by rw [List.length_cons, c6tail_length]; exact c6_slice1)
    (by rw [c6tail_length, show CRLF.length = 2 from rfl,
            show (65535 - 2 : Nat) = 65533 from rfl, c6_drop2]
        decide)
    (by decide)
  rw [show (0 :: c6tail).drop 1 = c6tail from rfl] at h
  rw [show (10 :: c6tail).take 1 = [10] from rfl] at h
  rw [pyJoin_pair c6tail [10] (by rw [c6tail_length]; omega)] at h
  exact h

/-- The status-line read of the leading-space response succeeds. -/
theorem c6a_status_read :
    co_read_status c6a
      = .ok ((200, "OK"),
             { c6a with
               rbuf := ⟨c6a.input ++ (List.replicate BUFFER_SIZE 0).drop c6a.input.length,
                        18, c6a.input.length⟩,
               input := [] }) := by
  have hrs := readstr_fresh c6a CRLF MAX_LINE_SIZE 16 (List.replicate BUFFER_SIZE 0)
    rfl rfl
    (by rw [List.length_replicate]; decide)
    (by decide)
    (by decide) (by rw [List.length_replicate]; decide)
    (by decide) (by decide)
  rw [show (16 + CRLF.length) = 18 from rfl] at hrs
  rw [show decodeLatin1 (c6a.input.take 18) = " HTTP/1.1 200 OK\r\n" from by decide] at hrs
  exact co_read_status_of_readstr c6a _ _ _ hrs rfl

/-- C6 (counterexample): the claim fails in two places.  (a) A status line
with a leading space does not start with `HTTP/1`, yet the status read
succeeds, because the parser whitespace-splits the line before checking
the version token.  (d) A 65536-byte status line received with its final
newline straddling the buffer boundary is read successfully even though it
exceeds the buffer capacity minus one (`MAX_LINE_SIZE` = 65535): the
straddle probe finds the delimiter before the length check can fire. -/
theorem c6_counterexample :
    (pyStartsWith " HTTP/1.1 200 OK\r\n" "HTTP/1" = false
       ∧ co_read_status c6a
           = .ok ((200, "OK"),
                  { c6a with
                    rbuf := ⟨c6a.input ++ (List.replicate BUFFER_SIZE 0).drop c6a.input.length,
                             18, c6a.input.length⟩,
                    input := [] }))
  ∧ (co_readstr_until c6big CRLF MAX_LINE_SIZE
       = .ok (c6line, { c6big with rbuf := ⟨10 :: c6tail, 1, 1⟩, input := [] })
     ∧ MAX_LINE_SIZE < c6line.length) := by
  refine ⟨⟨by decide, c6a_status_read⟩, c6_straddle_eval, ?_⟩
  have hclen : c6line.length = 65536 := by
    show ((c6tail ++ [10]).map Char.ofNat).length = 65536
    rw [List.length_map, List.length_append, c6tail_length]
    rfl
  rw [hclen]
  decide

/-- No CRLF occurs in a buffer full of filler bytes. -/
theorem c6w_nofind : bytesFind (List.replicate BUFFER_SIZE 97) CRLF 0 MAX_LINE_SIZE = none := by
  rw [bytesFind_none_iff]
  intro j hj hjs heq
  have hmem : (13 : Nat) ∈ pySlice (List.replicate BUFFER_SIZE 97) j (j + CRLF.length) := by
    rw [heq]
    decide
  unfold pySlice at hmem
  have h13 := List.eq_of_mem_replicate
    (List.drop_subset _ _ (List.take_subset _ _ hmem))
  omega

/-- Witness for C6: one concrete line per branch of the amended parser
description, and a full-buffer filler response for the over-long case. -/
theorem c6_witness :
    statusParseLine "XTTP/1.1 200 OK" = .error .unsupportedResponse
  ∧ statusParseLine "HTTP/1.1 abc OK" = .error .invalidResponse
  ∧ statusParseLine "HTTP/1.1 1000 OK" = .error .invalidResponse
  ∧ statusParseLine "HTTP/1.1 200 OK" = .ok (200, pyStrip "OK")
  ∧ statusParseLine "HTTP/1.1 204" = .ok (204, "")
  ∧ co_read_status { connEx with input := List.replicate BUFFER_SIZE 97 }
      = .error .invalidResponse := by
  obtain ⟨h1, h2, h3, h4, h5, h6⟩ := c6_status_line_amended
  have ha : (List.replicate BUFFER_SIZE (0 : Nat)).length
      ≤ ({ connEx with input := List.replicate BUFFER_SIZE 97 } : Conn).input.length := by
    rw [show ({ connEx with input := List.replicate BUFFER_SIZE 97 } : Conn).input
          = List.replicate BUFFER_SIZE 97 from rfl]
    rw [List.length_replicate, List.length_replicate]
  have hb : MAX_LINE_SIZE < (List.replicate BUFFER_SIZE (0 : Nat)).length := by
    rw [List.length_replicate]
    decide
  have hc : bytesFind
      (({ connEx with input := List.replicate BUFFER_SIZE 97 } : Conn).input.take
        (List.replicate BUFFER_SIZE (0 : Nat)).length) CRLF 0 MAX_LINE_SIZE = none := by
    rw [show ({ connEx with input := List.replicate BUFFER_SIZE 97 } : Conn).input
          = List.replicate BUFFER_SIZE 97 from rfl]
    rw [List.length_replicate, List.take_replicate, Nat.min_self]
    exact c6w_nofind
  exact ⟨h1 _ "XTTP/1.1" "200" "OK" (by decide) (by decide),
         h2 _ "HTTP/1.1" "abc" "OK" (by decide) (by decide) (by decide),
         h3 _ "HTTP/1.1" "1000" "OK" 1000 (by decide) (by decide) (by decide) (by decide),
         h4 _ "HTTP/1.1" "200" "OK" 200 (by decide) (by decide) (by decide) (by decide)
           (by decide),
         h5 _ "HTTP/1.1" "204" 204 (by decide) (by decide) (by decide) (by decide) (by decide),
         h6 _ (List.replicate BUFFER_SIZE 0) rfl rfl ha hb hc⟩

end Dugong
